import Mathlib

/-!
# BL-NET data logger client (`src/blnet.c`): query protocol and sensor decoder

A shallow embedding of the C program.

* `unsigned char` is `Fin 256`; a buffer is a `List Byte` whose length is the
  length argument the C caller passes along with the pointer.
* `int` is a mathematical integer in `[-2^31, 2^31)`; every arithmetic result is
  reduced to that range with `wrap_int`, and the bitwise operators act on the
  32-bit two's-complement pattern (`int_bits`).
* `double` arithmetic is modelled exactly in `ℚ`: the constants `0.1` and
  `1 / 2560.0` are the rationals `1/10` and `1/2560`, and binary rounding is
  outside the model.
* `exit(1)` is an `Except` error; an out-of-range buffer access is `none`.
* The transport (`send`/`recv`) is a script giving the outcome of each exchange.
-/

namespace Blnet

/-! ## Constants -/

def GET_MODE : Nat := 0x81
def GET_LATEST : Nat := 0xAB
def WAIT_TIME : Nat := 0xBA
def MAX_RETRIES : Nat := 10

def DIGITAL_ON : Int := 1
def DIGITAL_OFF : Int := 0
def SPEED_ACTIVE : Int := 0x80
def SPEED_MASK : Int := 0x1F
def INT16_POSITIVE_MASK : Int := 0xFFFF
def SIGN_BIT : Int := 0x8000
def POSITIVE_VALUE_MASK : Int := 0x0FFF
def TYPE_MASK : Int := 0x7000
def TYPE_NONE : Int := 0x0000
def TYPE_DIGITAL : Int := 0x1000
def TYPE_TEMP : Int := 0x2000
def TYPE_VOLUME : Int := 0x3000
def TYPE_RADIATION : Int := 0x4000
def TYPE_RAS : Int := 0x7000
def RAS_POSITIVE_MASK : Int := 0x01FF
/-- The constant `0xFFFFFFFF`; it has type `unsigned int` in C. -/
def INT32_MASK : Int := 0xFFFFFFFF
/-- The constant `0x80000000`; it has type `unsigned int` in C. -/
def INT32_SIGN : Int := 0x80000000

/-! ## Machine integers -/

/-- An `unsigned char`. -/
abbrev Byte := Fin 256

/-- Reduction of an integer to the range of a 32-bit `int` (two's complement);
also the conversion of an `unsigned int` value to `int`. -/
def wrap_int (x : Int) : Int := (x + 2 ^ 31) % 2 ^ 32 - 2 ^ 31

/-- The 32-bit two's-complement pattern of an `int`. -/
def int_bits (x : Int) : Nat := (x % 2 ^ 32).toNat

/-- The C operator `a & b` on `int`. -/
def int_and (a b : Int) : Int := wrap_int ((int_bits a &&& int_bits b : Nat) : Int)

/-- The C operator `a ^ b` on `int`. -/
def int_xor (a b : Int) : Int := wrap_int ((int_bits a ^^^ int_bits b : Nat) : Int)

/-- The C operator `a << n` on `int`. -/
def int_shl (a : Int) (n : Nat) : Int := wrap_int (a * 2 ^ n)

/-- Conversion of an `unsigned short` to `short`, as happens when
`parse_blnet_data` passes `analog[i]` to `convert_analog(short value)`. -/
def to_short (v : Nat) : Int :=
  if v % 65536 < 32768 then ((v % 65536 : Nat) : Int) else ((v % 65536 : Nat) : Int) - 65536

/-! ## Checksum -/

/-- The loop `for (i = 0; i < length - 1; i++) sum += data[i];` of `checksum`,
started at index `i` with `n` iterations left; `sum` is an `unsigned int`. -/
def checksum_loop (data : List Byte) : Nat → Nat → Nat → Nat
  | 0, _, sum => sum
  | n + 1, i, sum => checksum_loop data n (i + 1) ((sum + (data.getD i 0).val) % 2 ^ 32)

/-- The function `checksum(data, length)`, with `length` the length of the
buffer. (For an empty buffer the C code reads `data[-1]`; no caller does that.) -/
def checksum (data : List Byte) : Bool :=
  let length := data.length
  if length = 1 then true
  else
    let sum := checksum_loop data (length - 1) 0 0
    decide (sum % 256 = (data.getD (length - 1) 0).val)

/-! ## Sensor decoder -/

/-- The local `int result` of `calculate_value` just before its `return`. -/
def calculate_result (value positive_mask signbit : Int) : Int :=
  let result := int_and value positive_mask
  if int_and value signbit ≠ 0 then
    wrap_int (-(wrap_int (int_xor result positive_mask + 1)))
  else
    result

/-- The function `calculate_value(value, multiplier, positive_mask, signbit)`. -/
def calculate_value (value : Int) (multiplier : ℚ) (positive_mask signbit : Int) : ℚ :=
  (calculate_result value positive_mask signbit : ℚ) * multiplier

/-- The function `convert_analog(short value)`. -/
def convert_analog (value : Int) : ℚ :=
  let mask := int_and value TYPE_MASK
  if mask = TYPE_TEMP then
    calculate_value value (1 / 10) POSITIVE_VALUE_MASK SIGN_BIT
  else if mask = TYPE_VOLUME then
    calculate_value value 4 POSITIVE_VALUE_MASK SIGN_BIT
  else if mask = TYPE_DIGITAL then
    (if int_and value SIGN_BIT ≠ 0 then 1 else 0)
  else if mask = TYPE_RAS then
    calculate_value value (1 / 10) RAS_POSITIVE_MASK SIGN_BIT
  else
    calculate_value value 1 POSITIVE_VALUE_MASK SIGN_BIT

/-- The function `convert_digital(value, position)`. -/
def convert_digital (value : Int) (position : Nat) : Int :=
  if int_and value (int_shl 1 position) ≠ 0 then DIGITAL_ON else DIGITAL_OFF

/-- The function `convert_speed(value)`. -/
def convert_speed (value : Int) : ℚ :=
  if int_and value SPEED_ACTIVE ≠ 0 then -1 else ((int_and value SPEED_MASK : Int) : ℚ)

/-- The function `convert_energy(mwh, kwh)`; `mwh * 1000` is an `int` product. -/
def convert_energy (mwh kwh : Int) : ℚ :=
  ((wrap_int (mwh * 1000) : Int) : ℚ) + calculate_value kwh (1 / 10) INT16_POSITIVE_MASK SIGN_BIT

/-- The function `convert_power(value, active, position)`. The two unsigned
constants are converted to the `int` parameters of `calculate_value`. -/
def convert_power (value active position : Int) : ℚ :=
  if int_and active position ≠ 0 then
    calculate_value value (1 / 2560) (wrap_int INT32_MASK) (wrap_int INT32_SIGN)
  else
    -1

/-! ## The reading and its storage -/

/-- Contents of a 4-byte `int` object of the reading: an `int`, or one half of
the object representation of a `double` stored over it. -/
inductive IntCell where
  | int (n : Int)
  | double_low (x : ℚ)
  | double_high (x : ℚ)
  deriving DecidableEq

/-- The struct `BLNETData`. -/
structure BLNETData where
  collector : ℚ
  buffer_bottom : ℚ
  buffer_top : ℚ
  circulation : ℚ
  return_flow : ℚ
  digital : List IntCell
  speed : List ℚ
  energy : ℚ
  power : List ℚ
  deriving DecidableEq

/-- The value of `sizeof(double)`. -/
def sizeof_double : Nat := 8

/-- The store `*(&(p->collector) + k) = x`. Pointer arithmetic on a `double *`
counts in doubles, so the target is byte offset `8 * k` of the struct. With
4-byte `int`, 8-byte aligned `double` and little-endian storage the layout is
`collector` 0, `buffer_bottom` 8, `buffer_top` 16, `circulation` 24,
`return_flow` 32, `digital[0..8]` 40..75, `speed[0]` 80, `energy` 88,
`power[0..1]` 96..111. A store at `k ≥ 14` lands outside the struct and leaves
the reading itself as it was. -/
def store_double (p : BLNETData) (k : Nat) (x : ℚ) : BLNETData :=
  if k = 0 then { p with collector := x }
  else if k = 1 then { p with buffer_bottom := x }
  else if k = 2 then { p with buffer_top := x }
  else if k = 3 then { p with circulation := x }
  else if k = 4 then { p with return_flow := x }
  else if k ≤ 8 then
    let low := p.digital.set (2 * (k - 5)) (IntCell.double_low x)
    { p with digital := low.set (2 * (k - 5) + 1) (IntCell.double_high x) }
  else if k = 9 then { p with digital := p.digital.set 8 (IntCell.double_low x) }
  else if k = 10 then { p with speed := p.speed.set 0 x }
  else if k = 11 then { p with energy := x }
  else if k ≤ 13 then { p with power := p.power.set (k - 12) x }
  else p

/-- Copy of two bytes at `off` into an `unsigned short` (little-endian host). -/
def read_u16 (data : List Byte) (off : Nat) : Option Nat :=
  match data[off]?, data[off + 1]? with
  | some lo, some hi => some (lo.val + 256 * hi.val)
  | _, _ => none

/-- Copy of `sizeof(unsigned long)` = 8 bytes at `off` into an `unsigned long`. -/
def read_u64 (data : List Byte) (off : Nat) : Option Nat :=
  match read_u16 data off, read_u16 data (off + 2), read_u16 data (off + 4),
      read_u16 data (off + 6) with
  | some w0, some w1, some w2, some w3 =>
    some (w0 + 65536 * w1 + 65536 ^ 2 * w2 + 65536 ^ 3 * w3)
  | _, _, _, _ => none

/-- The copy `memcpy(analog, data + 1, 6 * sizeof(unsigned short))` into
`unsigned short analog[6]`. -/
def read_analog (data : List Byte) : Option (List Nat) :=
  match read_u16 data 1, read_u16 data 3, read_u16 data 5, read_u16 data 7,
      read_u16 data 9, read_u16 data 11 with
  | some a0, some a1, some a2, some a3, some a4, some a5 => some [a0, a1, a2, a3, a4, a5]
  | _, _, _, _, _, _ => none

/-- The loop `for (i = 0; i < 5; i++) *(&(parsed_data->collector) +
sizeof(double) * i) = convert_analog(analog[i]);` from index `i`, with `n`
iterations left. -/
def store_analog_loop (analog : List Nat) : Nat → Nat → BLNETData → BLNETData
  | 0, _, p => p
  | n + 1, i, p =>
    store_analog_loop analog n (i + 1)
      (store_double p (sizeof_double * i) (convert_analog (to_short (analog.getD i 0))))

/-- The function `parse_blnet_data(parsed_data, data, data_len)`; `none` when a
copy reads past the end of `data`. The argument `data_len` is not used. -/
def parse_blnet_data (parsed_data : BLNETData) (data : List Byte) (_data_len : Nat) :
    Option BLNETData :=
  match read_analog data, read_u64 data 34, read_u16 data 38, read_u16 data 40 with
  | some analog, some _power, some kwh, some mwh =>
    let p := store_analog_loop analog 5 0 parsed_data
    some { p with energy := convert_energy (mwh : Int) (kwh : Int) }
  | _, _, _, _ => none

/-! ## Query engine -/

/-- Ways in which the program stops with `exit(1)`, and the out-of-range access. -/
inductive Error where
  | send_failed
  | receive_failed
  | checksum_error
  | max_retries
  | out_of_bounds
  deriving DecidableEq

/-- Outcome of one `send`/`recv` pair on the socket: whether `send` succeeded,
and the bytes `recv` delivers (`none` when `recv` returns a negative value). -/
structure Exchange where
  send_ok : Bool
  recv : Option (List Byte)

/-- The struct `BLNETConn`, reduced to the field the query path reads. -/
structure BLNETConn where
  actualSize : Nat

/-- The function `send_command`. -/
def send_command (ex : Exchange) : Except Error Unit :=
  if ex.send_ok then Except.ok () else Except.error Error.send_failed

/-- The function `receive_response(sock, buffer, length)`: `recv` overwrites a
leading part of `buffer` with at most `length` bytes; the result is the count
and the buffer afterwards. -/
def receive_response (ex : Exchange) (buffer : List Byte) (length : Nat) :
    Except Error (Nat × List Byte) :=
  match ex.recv with
  | none => Except.error Error.receive_failed
  | some bytes =>
    let got := bytes.take length
    Except.ok (got.length, got ++ buffer.drop got.length)

/-- The function `query(conn, cmd, cmd_len, response, resp_len)`; the result is
the response buffer afterwards. The return value of `receive_response` is
dropped, as in the source. -/
def query (ex : Exchange) (response : List Byte) (resp_len : Nat) :
    Except Error (List Byte) :=
  match send_command ex with
  | Except.error e => Except.error e
  | Except.ok () =>
    match receive_response ex response resp_len with
    | Except.error e => Except.error e
    | Except.ok (_, buf) =>
      if checksum buf then Except.ok buf else Except.error Error.checksum_error

/-- Outcome of the call of `parse_blnet_data` inside `get_latest`. -/
def decode_result (r : Option BLNETData) : Except Error BLNETData :=
  match r with
  | some reading => Except.ok reading
  | none => Except.error Error.out_of_bounds

/-- The loop of `get_latest` with `n` iterations left; `i` counts the queries
issued so far and `net i` is the outcome of the next exchange. The result is
paired with the number of queries issued. -/
def get_latest_loop (conn : BLNETConn) (data : BLNETData) (net : Nat → Exchange) :
    Nat → Nat → List Byte → Except Error BLNETData × Nat
  | 0, i, _ => (Except.error Error.max_retries, i)
  | n + 1, i, response =>
    match query (net i) response conn.actualSize with
    | Except.error e => (Except.error e, i + 1)
    | Except.ok buf =>
      match buf[0]? with
      | none => (Except.error Error.out_of_bounds, i + 1)
      | some first =>
        if first.val ≠ WAIT_TIME then
          (decode_result (parse_blnet_data data buf conn.actualSize), i + 1)
        else
          get_latest_loop conn data net n (i + 1) buf

/-- The function `get_latest(conn, data)`. The array `response[conn->actualSize]`
starts with indeterminate contents `garbage`. -/
def get_latest (conn : BLNETConn) (data : BLNETData) (garbage : Nat → Byte)
    (net : Nat → Exchange) : Except Error BLNETData × Nat :=
  get_latest_loop conn data net MAX_RETRIES 0 ((List.range conn.actualSize).map garbage)

/-! ## Decode rule selected by `convert_analog` -/

/-- The decode rule `convert_analog` selects: the digital branch, or
`calculate_value` with a magnitude mask and a scale. -/
inductive AnalogRule where
  | digital
  | sign_magnitude (mask : Int) (scale : ℚ)
  deriving DecidableEq

/-- The branch that the `if`/`else if` chain of `convert_analog` takes. -/
def analog_rule (value : Int) : AnalogRule :=
  let mask := int_and value TYPE_MASK
  if mask = TYPE_TEMP then AnalogRule.sign_magnitude POSITIVE_VALUE_MASK (1 / 10)
  else if mask = TYPE_VOLUME then AnalogRule.sign_magnitude POSITIVE_VALUE_MASK 4
  else if mask = TYPE_DIGITAL then AnalogRule.digital
  else if mask = TYPE_RAS then AnalogRule.sign_magnitude RAS_POSITIVE_MASK (1 / 10)
  else AnalogRule.sign_magnitude POSITIVE_VALUE_MASK 1

/-- The value a branch of `convert_analog` returns. -/
def apply_rule (r : AnalogRule) (value : Int) : ℚ :=
  match r with
  | AnalogRule.digital => if int_and value SIGN_BIT ≠ 0 then 1 else 0
  | AnalogRule.sign_magnitude mask scale => calculate_value value scale mask SIGN_BIT

/-! ## Definitions that follow the specification's words -/

/-- The spec's sign-magnitude rule on a 16-bit field `v` with magnitude mask
`mask` and sign bit `0x8000`: the magnitude `v AND mask` when the sign bit is
clear, and `-(((v AND mask) XOR mask) + 1)` when it is set. -/
def spec_sign_magnitude (v mask : Nat) : Int :=
  if v &&& 0x8000 = 0 then ((v &&& mask : Nat) : Int)
  else -((((v &&& mask) ^^^ mask : Nat) : Int) + 1)

/-- The spec's magnitude mask for a type tag `v AND 0x7000`: `0x01FF` for the
wide-range tag, `0x0FFF` for every other tag. -/
def spec_analog_mask (tag : Nat) : Nat :=
  if tag = 0x7000 then 0x01FF else 0x0FFF

/-- The spec's scale for a type tag `v AND 0x7000`: temperature 0.1, volume 4,
wide-range 0.1, every other tag 1. -/
def spec_analog_scale (tag : Nat) : ℚ :=
  if tag = 0x2000 then 1 / 10
  else if tag = 0x3000 then 4
  else if tag = 0x7000 then 1 / 10
  else 1

/-- The spec's sign-magnitude encoder for mask `m` and sign bit `0x8000`: `n`
itself when `n ≥ 0`, and `0x8000 OR ((n + m + 1) AND m)` when `n < 0`. -/
def spec_encode (n : Int) (m : Nat) : Nat :=
  if 0 ≤ n then n.toNat else 0x8000 ||| ((n + (m : Int) + 1).toNat &&& m)

/-- The value of a 16-bit pattern read as 16-bit two's complement, `int16(x)`. -/
def spec_int16 (x : Nat) : Int :=
  if x < 32768 then (x : Int) else (x : Int) - 65536

/-- The little-endian 16-bit field at byte offsets `off` and `off + 1`. -/
def le16 (data : List Byte) (off : Nat) : Nat :=
  (data.getD off 0).val + 256 * (data.getD (off + 1) 0).val

/-- The transport on which every `send` succeeds and the `i`-th `recv` delivers
the whole device response `resp i`. -/
def device (resp : Nat → List Byte) : Nat → Exchange :=
  fun i => { send_ok := true, recv := some (resp i) }

/-- A full-length, checksum-valid response whose first byte is the not-ready
sentinel `WAIT_TIME`. -/
def not_ready_response (size : Nat) (r : List Byte) : Prop :=
  r.length = size ∧ checksum r = true ∧ ∃ first, r[0]? = some first ∧ first.val = WAIT_TIME

/-- A full-length, checksum-valid response whose first byte is not the sentinel. -/
def ready_response (size : Nat) (r : List Byte) : Prop :=
  r.length = size ∧ checksum r = true ∧ ∃ first, r[0]? = some first ∧ first.val ≠ WAIT_TIME

/-! ## Sample data -/

/-- A 55-byte not-ready response: sentinel `0xBA`, 53 zero bytes, checksum `0xBA`. -/
def sample_wait : List Byte :=
  [0xBA] ++ List.replicate 53 0 ++ [0xBA]

/-- A 55-byte snapshot: status byte 0, analog fields `0x2064`, `0x20C8`,
`0x212C`, `0x2190`, `0x21F4`, `0x0000` (temperatures 10, 20, 30, 40, 50 and an
unused channel), kWh field `0x0032` at 38, MWh field `0x0002` at 40, checksum
`0xB3`. -/
def sample_snapshot : List Byte :=
  [0x00, 0x64, 0x20, 0xC8, 0x20, 0x2C, 0x21, 0x90, 0x21, 0xF4, 0x21, 0x00, 0x00]
    ++ List.replicate 25 0 ++ [0x32, 0x00, 0x02, 0x00] ++ List.replicate 12 0 ++ [0xB3]

/-- A reading with every field zero. -/
def sample_reading : BLNETData :=
  { collector := 0, buffer_bottom := 0, buffer_top := 0, circulation := 0, return_flow := 0,
    digital := List.replicate 9 (IntCell.int 0), speed := [0], energy := 0, power := [0, 0] }

/-- Device responses: not ready six times, then the snapshot. -/
def sample_responses : Nat → List Byte :=
  fun i => if i < 6 then sample_wait else sample_snapshot

/-! ## Instrumented query engine -/

/-- What the query path does with a response buffer: `checked buf` when `query`
runs `checksum` over `buf`, `parsed buf` when `get_latest` calls
`parse_blnet_data` on `buf`. -/
inductive Event where
  | checked (buf : List Byte)
  | parsed (buf : List Byte)
  deriving DecidableEq

/-- The function `query`, with its call of `checksum` recorded. -/
def query_traced (ex : Exchange) (response : List Byte) (resp_len : Nat) :
    Except Error (List Byte) × List Event :=
  match send_command ex with
  | Except.error e => (Except.error e, [])
  | Except.ok () =>
    match receive_response ex response resp_len with
    | Except.error e => (Except.error e, [])
    | Except.ok (_, buf) =>
      if checksum buf then (Except.ok buf, [Event.checked buf])
      else (Except.error Error.checksum_error, [Event.checked buf])

/-- The loop of `get_latest`, with the calls of `checksum` and of
`parse_blnet_data` recorded in order. -/
def get_latest_loop_traced (conn : BLNETConn) (data : BLNETData) (net : Nat → Exchange) :
    Nat → Nat → List Byte → (Except Error BLNETData × Nat) × List Event
  | 0, i, _ => ((Except.error Error.max_retries, i), [])
  | n + 1, i, response =>
    match query_traced (net i) response conn.actualSize with
    | (Except.error e, evs) => ((Except.error e, i + 1), evs)
    | (Except.ok buf, evs) =>
      match buf[0]? with
      | none => ((Except.error Error.out_of_bounds, i + 1), evs)
      | some first =>
        if first.val ≠ WAIT_TIME then
          ((decode_result (parse_blnet_data data buf conn.actualSize), i + 1),
            evs ++ [Event.parsed buf])
        else
          ((get_latest_loop_traced conn data net n (i + 1) buf).1,
            evs ++ (get_latest_loop_traced conn data net n (i + 1) buf).2)

/-- The function `get_latest`, with the calls of `checksum` and of
`parse_blnet_data` recorded in order. -/
def get_latest_traced (conn : BLNETConn) (data : BLNETData) (garbage : Nat → Byte)
    (net : Nat → Exchange) : (Except Error BLNETData × Nat) × List Event :=
  get_latest_loop_traced conn data net MAX_RETRIES 0 ((List.range conn.actualSize).map garbage)

/-- A transport for 3-byte responses: two not-ready responses with a valid
checksum, then a response `01 02 04` whose checksum byte is wrong, then valid
responses `01 02 03`. -/
def sample_corrupt_net : Nat → Exchange :=
  fun i =>
    if i < 2 then { send_ok := true, recv := some [0xBA, 0x00, 0xBA] }
    else if i = 2 then { send_ok := true, recv := some [0x01, 0x02, 0x04] }
    else { send_ok := true, recv := some [0x01, 0x02, 0x03] }

/-! ## Machine-integer lemmas -/

theorem wrap_int_of_range (x : Int) (h1 : -2 ^ 31 ≤ x) (h2 : x < 2 ^ 31) : wrap_int x = x := by
  unfold wrap_int
  omega

theorem int_bits_natCast (a : Nat) (h : a < 2 ^ 32) : int_bits (a : Int) = a := by
  unfold int_bits
  omega

theorem int_bits_to_short (v : Nat) (hv : v < 65536) :
    int_bits (to_short v) % 2 ^ 16 = v := by
  unfold int_bits to_short
  split <;> omega

theorem and_mod_two_pow_16 (x m : Nat) (hm : m < 2 ^ 16) : x &&& m = (x % 2 ^ 16) &&& m := by
  apply Nat.eq_of_testBit_eq
  intro i
  simp only [Nat.testBit_and, Nat.testBit_mod_two_pow]
  by_cases hi : i < 16
  · simp [hi]
  · have hmi : m.testBit i = false :=
      Nat.testBit_lt_two_pow (lt_of_lt_of_le hm (Nat.pow_le_pow_right (by decide) (by omega)))
    simp [hmi]

theorem int_and_natCast (a b : Nat) (ha : a < 2 ^ 31) (hb : b < 2 ^ 31) :
    int_and (a : Int) (b : Int) = ((a &&& b : Nat) : Int) := by
  unfold int_and
  rw [int_bits_natCast a (by omega), int_bits_natCast b (by omega)]
  have h : a &&& b ≤ a := Nat.and_le_left
  exact wrap_int_of_range _ (by omega) (by omega)

theorem int_and_to_short (v m : Nat) (hv : v < 65536) (hm : m < 65536) :
    int_and (to_short v) (m : Int) = ((v &&& m : Nat) : Int) := by
  unfold int_and
  rw [int_bits_natCast m (by omega), and_mod_two_pow_16 _ m (by omega), int_bits_to_short v hv]
  have h : v &&& m ≤ v := Nat.and_le_left
  exact wrap_int_of_range _ (by omega) (by omega)

theorem int_xor_natCast (a b : Nat) (ha : a < 2 ^ 16) (hb : b < 2 ^ 16) :
    int_xor (a : Int) (b : Int) = ((a ^^^ b : Nat) : Int) := by
  unfold int_xor
  rw [int_bits_natCast a (by omega), int_bits_natCast b (by omega)]
  have h : a ^^^ b < 2 ^ 16 := Nat.xor_lt_two_pow ha hb
  exact wrap_int_of_range _ (by omega) (by omega)


theorem calculate_result_of_ands (value : Int) (v mask : Nat) (hm : mask < 65536)
    (h1 : int_and value (mask : Int) = ((v &&& mask : Nat) : Int))
    (h2 : int_and value SIGN_BIT = ((v &&& 0x8000 : Nat) : Int)) :
    calculate_result value (mask : Int) SIGN_BIT = spec_sign_magnitude v mask := by
  unfold calculate_result spec_sign_magnitude
  simp only [h1, h2]
  have hle : v &&& mask ≤ mask := Nat.and_le_right
  have hx : (v &&& mask) ^^^ mask < 2 ^ 16 := Nat.xor_lt_two_pow (by omega) (by omega)
  rw [int_xor_natCast _ _ (by omega) (by omega)]
  by_cases hs : v &&& 0x8000 = 0
  · simp [hs]
  · have hs2 : ((v &&& 0x8000 : Nat) : Int) ≠ 0 := by exact_mod_cast hs
    rw [if_pos hs2, if_neg hs]
    rw [wrap_int_of_range (((v &&& mask ^^^ mask : Nat) : Int) + 1) (by omega) (by omega)]
    rw [wrap_int_of_range _ (by omega) (by omega)]

theorem calculate_result_to_short (v mask : Nat) (hv : v < 65536) (hm : mask < 65536) :
    calculate_result (to_short v) (mask : Int) SIGN_BIT = spec_sign_magnitude v mask :=
  calculate_result_of_ands _ v mask hm (int_and_to_short v mask hv hm)
    (int_and_to_short v 0x8000 hv (by decide))

theorem calculate_result_natCast (v mask : Nat) (hv : v < 65536) (hm : mask < 65536) :
    calculate_result (v : Int) (mask : Int) SIGN_BIT = spec_sign_magnitude v mask :=
  calculate_result_of_ands _ v mask hm (int_and_natCast v mask (by omega) (by omega))
    (int_and_natCast v 0x8000 (by omega) (by decide))

/-! ## Helper lemmas for the checksum and the analog decoder -/

theorem checksum_loop_mod (data : List Byte) :
    ∀ n i sum : Nat, i + n ≤ data.length →
      checksum_loop data n i sum % 256
        = (sum + (((data.drop i).take n).map Fin.val).sum) % 256 := by
  intro n
  induction n with
  | zero => intro i sum _; simp [checksum_loop]
  | succ n ih =>
    intro i sum h
    have hi : i < data.length := by omega
    rw [checksum_loop, ih (i + 1) _ (by omega)]
    rw [List.drop_eq_getElem_cons hi, List.take_succ_cons, List.map_cons, List.sum_cons]
    have hd : data.getD i 0 = data[i] := by
      simp [List.getD, List.getElem?_eq_getElem hi]
    rw [hd]
    omega

theorem convert_analog_cases (v : Nat) (hv : v < 65536) :
    convert_analog (to_short v) =
      if v &&& 0x7000 = 0x2000 then (spec_sign_magnitude v 0x0FFF : ℚ) * (1 / 10)
      else if v &&& 0x7000 = 0x3000 then (spec_sign_magnitude v 0x0FFF : ℚ) * 4
      else if v &&& 0x7000 = 0x1000 then (if v &&& 0x8000 ≠ 0 then 1 else 0)
      else if v &&& 0x7000 = 0x7000 then (spec_sign_magnitude v 0x01FF : ℚ) * (1 / 10)
      else (spec_sign_magnitude v 0x0FFF : ℚ) * 1 := by
  have ht : int_and (to_short v) TYPE_MASK = ((v &&& 0x7000 : Nat) : Int) :=
    int_and_to_short v 0x7000 hv (by decide)
  have hs : int_and (to_short v) SIGN_BIT = ((v &&& 0x8000 : Nat) : Int) :=
    int_and_to_short v 0x8000 hv (by decide)
  have h1 : calculate_result (to_short v) POSITIVE_VALUE_MASK SIGN_BIT
      = spec_sign_magnitude v 0x0FFF := calculate_result_to_short v 0x0FFF hv (by decide)
  have h2 : calculate_result (to_short v) RAS_POSITIVE_MASK SIGN_BIT
      = spec_sign_magnitude v 0x01FF := calculate_result_to_short v 0x01FF hv (by decide)
  have e1 : (((v &&& 0x7000 : Nat) : Int) = TYPE_TEMP) ↔ v &&& 0x7000 = 0x2000 := by
    unfold TYPE_TEMP; omega
  have e2 : (((v &&& 0x7000 : Nat) : Int) = TYPE_VOLUME) ↔ v &&& 0x7000 = 0x3000 := by
    unfold TYPE_VOLUME; omega
  have e3 : (((v &&& 0x7000 : Nat) : Int) = TYPE_DIGITAL) ↔ v &&& 0x7000 = 0x1000 := by
    unfold TYPE_DIGITAL; omega
  have e4 : (((v &&& 0x7000 : Nat) : Int) = TYPE_RAS) ↔ v &&& 0x7000 = 0x7000 := by
    unfold TYPE_RAS; omega
  have e5 : (((v &&& 0x8000 : Nat) : Int) ≠ 0) ↔ v &&& 0x8000 ≠ 0 := by
    omega
  unfold convert_analog calculate_value
  simp only [ht, hs, h1, h2, e1, e2, e3, e4, e5]

theorem convert_analog_eq_apply_rule (value : Int) :
    convert_analog value = apply_rule (analog_rule value) value := by
  unfold convert_analog analog_rule
  simp only
  split_ifs <;> simp [apply_rule, *]

theorem analog_rule_to_short (v : Nat) (hv : v < 65536) :
    analog_rule (to_short v) = analog_rule ((v &&& 0x7000 : Nat) : Int) := by
  have ht : int_and (to_short v) TYPE_MASK = ((v &&& 0x7000 : Nat) : Int) :=
    int_and_to_short v 0x7000 hv (by decide)
  have hle : v &&& 0x7000 ≤ 0x7000 := Nat.and_le_right
  have ht2 : int_and ((v &&& 0x7000 : Nat) : Int) TYPE_MASK = ((v &&& 0x7000 : Nat) : Int) := by
    have h := int_and_natCast (v &&& 0x7000) 0x7000 (by omega) (by decide)
    have h7 : (0x7000 &&& 0x7000 : Nat) = 0x7000 := by decide
    rw [Nat.and_assoc, h7] at h
    exact h
  unfold analog_rule
  simp only [ht, ht2]

/-! ## C1: the checksum law -/

/-- Claim C1: for every byte buffer of length at least 2, `checksum` returns
true if and only if the last byte equals the sum of all preceding bytes modulo
256; for every buffer of length 1 it returns true. -/
theorem checksum_iff (data : List Byte) :
    (data.length = 1 → checksum data = true) ∧
    (2 ≤ data.length →
      (checksum data = true ↔
        (data.getD (data.length - 1) 0).val
          = ((data.take (data.length - 1)).map Fin.val).sum % 256)) := by
  constructor
  · intro h
    simp [checksum, h]
  · intro h
    have hne : data.length ≠ 1 := by omega
    have hl := checksum_loop_mod data (data.length - 1) 0 0 (by omega)
    simp only [List.drop_zero, Nat.zero_add] at hl
    unfold checksum
    simp only [hne, if_false, decide_eq_true_eq, hl]
    constructor <;> intro h2 <;> exact h2.symm

/-- Witness for C1 at the one-byte buffer `[7]` and at the buffer `[200, 100, 44]`,
whose last byte is `(200 + 100) mod 256`. -/
theorem checksum_iff_witness :
    (([7] : List Byte).length = 1 ∧ checksum [7] = true) ∧
    (2 ≤ ([200, 100, 44] : List Byte).length ∧
      (checksum [200, 100, 44] = true ↔
        (([200, 100, 44] : List Byte).getD (([200, 100, 44] : List Byte).length - 1) 0).val
          = ((([200, 100, 44] : List Byte).take
              (([200, 100, 44] : List Byte).length - 1)).map Fin.val).sum % 256)) :=
  ⟨⟨by decide, (checksum_iff [7]).1 (by decide)⟩,
    ⟨by decide, (checksum_iff [200, 100, 44]).2 (by decide)⟩⟩

/-! ## C2: analog decode of the non-digital tags -/

/-- Claim C2: for every 16-bit field `v` whose tag `v AND 0x7000` is not the
digital tag, `convert_analog v` equals `s * scale`, where `s` is the
sign-magnitude value of `v` under the tag's mask (`spec_sign_magnitude`), the
mask is `0x01FF` for the wide-range tag and `0x0FFF` otherwise, and the scale is
0.1 for temperature and wide-range, 4 for volume and 1 for every other tag. The
temperature field with magnitude 100 decodes to 10 with the sign bit clear and
to -399.6 with the sign bit set. -/
theorem convert_analog_sign_magnitude :
    (∀ v : Nat, v < 65536 → v &&& 0x7000 ≠ 0x1000 →
      convert_analog (to_short v) =
        (spec_sign_magnitude v (spec_analog_mask (v &&& 0x7000)) : ℚ)
          * spec_analog_scale (v &&& 0x7000))
    ∧ convert_analog (to_short 0x2064) = 10
    ∧ convert_analog (to_short 0xA064) = -(3996 / 10) := by
  have key : ∀ v : Nat, v < 65536 → v &&& 0x7000 ≠ 0x1000 →
      convert_analog (to_short v) =
        (spec_sign_magnitude v (spec_analog_mask (v &&& 0x7000)) : ℚ)
          * spec_analog_scale (v &&& 0x7000) := by
    intro v hv htag
    rw [convert_analog_cases v hv]
    unfold spec_analog_mask spec_analog_scale
    by_cases h1 : v &&& 0x7000 = 0x2000
    · simp [h1]
    · by_cases h2 : v &&& 0x7000 = 0x3000
      · simp [h2]
      · by_cases h4 : v &&& 0x7000 = 0x7000
        · simp [h4]
        · simp [h1, h2, h4, htag]
  refine ⟨key, ?_, ?_⟩
  · rw [key 0x2064 (by decide) (by decide)]
    have h : spec_sign_magnitude 0x2064 (spec_analog_mask (0x2064 &&& 0x7000)) = 100 := by decide
    rw [h]
    have h2 : spec_analog_scale (0x2064 &&& 0x7000) = 1 / 10 := by
      have ht : (0x2064 &&& 0x7000 : Nat) = 0x2000 := by decide
      rw [ht]; simp [spec_analog_scale]
    rw [h2]; norm_num
  · rw [key 0xA064 (by decide) (by decide)]
    have h : spec_sign_magnitude 0xA064 (spec_analog_mask (0xA064 &&& 0x7000)) = -3996 := by
      decide
    rw [h]
    have h2 : spec_analog_scale (0xA064 &&& 0x7000) = 1 / 10 := by
      have ht : (0xA064 &&& 0x7000 : Nat) = 0x2000 := by decide
      rw [ht]; simp [spec_analog_scale]
    rw [h2]; norm_num

/-- Witness for C2 at the volume field `0xB005` (sign bit set, magnitude 5). -/
theorem convert_analog_sign_magnitude_witness :
    (0xB005 < 65536 ∧ 0xB005 &&& 0x7000 ≠ 0x1000) ∧
    convert_analog (to_short 0xB005) =
      (spec_sign_magnitude 0xB005 (spec_analog_mask (0xB005 &&& 0x7000)) : ℚ)
        * spec_analog_scale (0xB005 &&& 0x7000) :=
  ⟨⟨by decide, by decide⟩, convert_analog_sign_magnitude.1 0xB005 (by decide) (by decide)⟩

/-! ## C3: which bits form the type tag -/

/-- Claim C3 as amended: the type tag that selects the decode rule of
`convert_analog` is bits 14..12 of the field (`v AND 0x7000`); bit 15 is the
sign bit. Two 16-bit fields with equal `v AND 0x7000` get the same rule (same
digital or sign-magnitude branch, same mask, same scale), and `convert_analog`
is that rule applied to each field. -/
theorem convert_analog_rule_of_tag (v w : Nat) (hv : v < 65536) (hw : w < 65536)
    (htag : v &&& 0x7000 = w &&& 0x7000) :
    analog_rule (to_short v) = analog_rule (to_short w)
    ∧ convert_analog (to_short v) = apply_rule (analog_rule (to_short v)) (to_short v)
    ∧ convert_analog (to_short w) = apply_rule (analog_rule (to_short v)) (to_short w) := by
  have h : analog_rule (to_short v) = analog_rule (to_short w) := by
    rw [analog_rule_to_short v hv, analog_rule_to_short w hw, htag]
  refine ⟨h, convert_analog_eq_apply_rule _, ?_⟩
  rw [h]
  exact convert_analog_eq_apply_rule _

/-- Witness for the amended C3 at the temperature fields `0x2064` and `0xA7FF`. -/
theorem convert_analog_rule_of_tag_witness :
    (0x2064 < 65536 ∧ 0xA7FF < 65536 ∧ (0x2064 &&& 0x7000 = 0xA7FF &&& 0x7000)) ∧
    (analog_rule (to_short 0x2064) = analog_rule (to_short 0xA7FF)
    ∧ convert_analog (to_short 0x2064)
        = apply_rule (analog_rule (to_short 0x2064)) (to_short 0x2064)
    ∧ convert_analog (to_short 0xA7FF)
        = apply_rule (analog_rule (to_short 0x2064)) (to_short 0xA7FF)) :=
  ⟨⟨by decide, by decide, by decide⟩,
    convert_analog_rule_of_tag 0x2064 0xA7FF (by decide) (by decide) (by decide)⟩

/-- Counterexample to C3 as stated: the fields `0x1064` and `0x0064` have the
same top three bits (bits 15..13 are all clear), yet the first takes the digital
branch and decodes to 0 and the second takes the sign-magnitude branch with mask
`0x0FFF` and scale 1 and decodes to 100. -/
theorem convert_analog_top_three_bits_counterexample :
    0x1064 < 65536 ∧ 0x0064 < 65536 ∧ 0x1064 >>> 13 = 0x0064 >>> 13
    ∧ analog_rule (to_short 0x1064) = AnalogRule.digital
    ∧ analog_rule (to_short 0x0064) = AnalogRule.sign_magnitude 0x0FFF 1
    ∧ analog_rule (to_short 0x1064) ≠ analog_rule (to_short 0x0064)
    ∧ convert_analog (to_short 0x1064) = 0
    ∧ convert_analog (to_short 0x0064) = 100 := by
  have h1 : analog_rule (to_short 0x1064) = AnalogRule.digital := by
    have ht : int_and (to_short 0x1064) TYPE_MASK = TYPE_DIGITAL := by decide
    simp [analog_rule, ht, TYPE_DIGITAL, TYPE_TEMP, TYPE_VOLUME]
  have h2 : analog_rule (to_short 0x0064) = AnalogRule.sign_magnitude 0x0FFF 1 := by
    have ht : int_and (to_short 0x0064) TYPE_MASK = 0 := by decide
    simp [analog_rule, ht, TYPE_DIGITAL, TYPE_TEMP, TYPE_VOLUME, TYPE_RAS, POSITIVE_VALUE_MASK]
  refine ⟨by decide, by decide, by decide, h1, h2, ?_, ?_, ?_⟩
  · rw [h1, h2]; simp
  · rw [convert_analog_eq_apply_rule, h1]; decide
  · rw [convert_analog_eq_apply_rule, h2]
    have h3 : calculate_result (to_short 0x0064) 0x0FFF SIGN_BIT = 100 := by decide
    simp [apply_rule, calculate_value, h3]

/-! ## C4: the digital tag -/

/-- Claim C4: for every 16-bit field carrying the digital tag
(`v AND 0x7000 = 0x1000`), `convert_analog v` is 1 if the sign bit `0x8000` is
set and 0 if it is clear, whatever the magnitude bits are. -/
theorem convert_analog_digital (v : Nat) (hv : v < 65536) (htag : v &&& 0x7000 = 0x1000) :
    convert_analog (to_short v) = if v &&& 0x8000 ≠ 0 then 1 else 0 := by
  rw [convert_analog_cases v hv]
  simp [htag]

/-- Witness for C4 at the field `0x9ABC` (digital tag, sign bit set, magnitude
bits `0xABC`). -/
theorem convert_analog_digital_witness :
    (0x9ABC < 65536 ∧ 0x9ABC &&& 0x7000 = 0x1000) ∧
    convert_analog (to_short 0x9ABC) = if 0x9ABC &&& 0x8000 ≠ 0 then 1 else 0 :=
  ⟨⟨by decide, by decide⟩, convert_analog_digital 0x9ABC (by decide) (by decide)⟩

/-! ## Helper lemmas for the snapshot parser and the retry loop -/

theorem le16_lt (data : List Byte) (off : Nat) : le16 data off < 65536 := by
  unfold le16
  have h1 := (data.getD off 0).isLt
  have h2 := (data.getD (off + 1) 0).isLt
  omega

theorem read_u16_eq (data : List Byte) (off : Nat) (h : off + 1 < data.length) :
    read_u16 data off = some (le16 data off) := by
  have h0 : off < data.length := by omega
  simp [read_u16, le16, List.getD, List.getElem?_eq_getElem h, List.getElem?_eq_getElem h0]

theorem read_u64_isSome (data : List Byte) (off : Nat) (h : off + 8 ≤ data.length) :
    ∃ w, read_u64 data off = some w := by
  unfold read_u64
  rw [read_u16_eq data off (by omega), read_u16_eq data (off + 2) (by omega),
    read_u16_eq data (off + 4) (by omega), read_u16_eq data (off + 6) (by omega)]
  exact ⟨_, rfl⟩

theorem store_analog_loop_eq (analog : List Nat) (p : BLNETData) :
    store_analog_loop analog 5 0 p =
      { p with
        collector := convert_analog (to_short (analog.getD 0 0))
        digital :=
          (p.digital.set 6 (IntCell.double_low (convert_analog (to_short (analog.getD 1 0))))).set
            7 (IntCell.double_high (convert_analog (to_short (analog.getD 1 0)))) } := by
  simp [store_analog_loop, store_double, sizeof_double]

theorem parse_blnet_data_eq (p : BLNETData) (data : List Byte) (data_len : Nat)
    (h : 42 ≤ data.length) :
    parse_blnet_data p data data_len =
      some { p with
        collector := convert_analog (to_short (le16 data 1))
        digital :=
          (p.digital.set 6 (IntCell.double_low (convert_analog (to_short (le16 data 3))))).set
            7 (IntCell.double_high (convert_analog (to_short (le16 data 3))))
        energy := convert_energy (le16 data 40) (le16 data 38) } := by
  obtain ⟨w, hw⟩ := read_u64_isSome data 34 (by omega)
  unfold parse_blnet_data read_analog
  rw [hw, read_u16_eq data 38 (by omega), read_u16_eq data 40 (by omega),
    read_u16_eq data 1 (by omega), read_u16_eq data 3 (by omega),
    read_u16_eq data 5 (by omega), read_u16_eq data 7 (by omega),
    read_u16_eq data 9 (by omega), read_u16_eq data 11 (by omega)]
  simp [store_analog_loop_eq]

theorem query_device (resp : Nat → List Byte) (i size : Nat) (response : List Byte)
    (hlen : response.length = size) (hr : (resp i).length = size)
    (hc : checksum (resp i) = true) :
    query (device resp i) response size = Except.ok (resp i) := by
  have ht : (resp i).take size = resp i := by
    rw [← hr]; exact List.take_length _
  have hd : response.drop (resp i).length = [] := by
    rw [hr, ← hlen]; exact List.drop_length _
  simp [query, send_command, receive_response, device, ht, hd, hc]

theorem get_latest_loop_not_ready (conn : BLNETConn) (data : BLNETData)
    (resp : Nat → List Byte) :
    ∀ n i : Nat, ∀ response : List Byte, response.length = conn.actualSize →
      (∀ j, i ≤ j → j < i + n → not_ready_response conn.actualSize (resp j)) →
      get_latest_loop conn data (device resp) n i response
        = (Except.error Error.max_retries, i + n) := by
  intro n
  induction n with
  | zero => intro i response _ _; simp [get_latest_loop]
  | succ n ih =>
    intro i response hlen h
    obtain ⟨hr, hc, first, hf, hw⟩ := h i (le_refl _) (by omega)
    rw [get_latest_loop, query_device resp i _ response hlen hr hc]
    simp only [hf, hw, ne_eq, not_true_eq_false, if_false]
    rw [ih (i + 1) (resp i) hr (fun j h1 h2 => h j (by omega) (by omega))]
    congr 1
    omega

theorem get_latest_loop_ready (conn : BLNETConn) (data : BLNETData)
    (resp : Nat → List Byte) :
    ∀ m n i : Nat, ∀ response : List Byte, response.length = conn.actualSize → m < n →
      (∀ j, i ≤ j → j < i + m → not_ready_response conn.actualSize (resp j)) →
      ready_response conn.actualSize (resp (i + m)) →
      get_latest_loop conn data (device resp) n i response
        = (decode_result (parse_blnet_data data (resp (i + m)) conn.actualSize),
            i + m + 1) := by
  intro m
  induction m with
  | zero =>
    intro n i response hlen hn _ hready
    obtain ⟨n, rfl⟩ : ∃ k, n = k + 1 := ⟨n - 1, by omega⟩
    obtain ⟨hr, hc, first, hf, hw⟩ := hready
    simp only [Nat.add_zero] at hr hc hf ⊢
    rw [get_latest_loop, query_device resp i _ response hlen hr hc]
    simp only [hf, hw, ne_eq, not_false_eq_true, if_true]
  | succ m ih =>
    intro n i response hlen hn h hready
    obtain ⟨n, rfl⟩ : ∃ k, n = k + 1 := ⟨n - 1, by omega⟩
    obtain ⟨hr, hc, first, hf, hw⟩ := h i (le_refl _) (by omega)
    rw [get_latest_loop, query_device resp i _ response hlen hr hc]
    simp only [hf, hw, ne_eq, not_true_eq_false, if_false]
    have e : i + (m + 1) = i + 1 + m := by omega
    rw [e] at hready ⊢
    exact ih n (i + 1) (resp i) hr (by omega) (fun j h1 h2 => h j (by omega) (by omega)) hready

theorem get_latest_loop_count (conn : BLNETConn) (data : BLNETData) (net : Nat → Exchange) :
    ∀ n i : Nat, ∀ response : List Byte,
      (get_latest_loop conn data net n i response).2 ≤ i + n := by
  intro n
  induction n with
  | zero => intro i response; simp [get_latest_loop]
  | succ n ih =>
    intro i response
    rw [get_latest_loop]
    split
    · simp
    · split
      · simp
      · split
        · simp
        · have := ih (i + 1) (by assumption)
          omega

theorem sample_wait_not_ready : not_ready_response 55 sample_wait :=
  ⟨by decide, by decide, ⟨0xBA, by decide, by decide⟩⟩

theorem sample_snapshot_ready : ready_response 55 sample_snapshot :=
  ⟨by decide, by decide, ⟨0x00, by decide, by decide⟩⟩


/-! ## C5: bounded retries -/

/-- Claim C5: `get_latest` issues at most `MAX_RETRIES` = 10 queries. For every
sequence of checksum-valid device responses: if each of the first 10 responses
starts with the not-ready sentinel `0xBA`, `get_latest` fails with retries
exhausted after exactly 10 queries; if the first response whose first byte
differs from `0xBA` is the `k`-th (`1 ≤ k ≤ 10`), `get_latest` returns what
`parse_blnet_data` decodes from exactly that response after exactly `k` queries,
and that is a reading whenever the response has at least 42 bytes. -/
theorem get_latest_retry (conn : BLNETConn) (data : BLNETData) (garbage : Nat → Byte) :
    (∀ net : Nat → Exchange, (get_latest conn data garbage net).2 ≤ 10) ∧
    (∀ resp : Nat → List Byte,
      (∀ i, i < 10 → not_ready_response conn.actualSize (resp i)) →
      get_latest conn data garbage (device resp) = (Except.error Error.max_retries, 10)) ∧
    (∀ (resp : Nat → List Byte) (k : Nat), 1 ≤ k → k ≤ 10 →
      (∀ i, i < k - 1 → not_ready_response conn.actualSize (resp i)) →
      ready_response conn.actualSize (resp (k - 1)) →
      get_latest conn data garbage (device resp)
          = (decode_result (parse_blnet_data data (resp (k - 1)) conn.actualSize), k)
        ∧ (42 ≤ conn.actualSize →
          ∃ reading, parse_blnet_data data (resp (k - 1)) conn.actualSize = some reading
            ∧ get_latest conn data garbage (device resp) = (Except.ok reading, k))) := by
  have hlen : ((List.range conn.actualSize).map garbage).length = conn.actualSize := by simp
  refine ⟨?_, ?_, ?_⟩
  · intro net
    have h := get_latest_loop_count conn data net MAX_RETRIES 0
      ((List.range conn.actualSize).map garbage)
    simpa [get_latest, MAX_RETRIES] using h
  · intro resp h
    have h2 := get_latest_loop_not_ready conn data resp MAX_RETRIES 0 _ hlen
      (fun j _ hj => h j (by simpa [MAX_RETRIES] using hj))
    simpa [get_latest, MAX_RETRIES] using h2
  · intro resp k hk1 hk2 hwait hready
    have h2 := get_latest_loop_ready conn data resp (k - 1) MAX_RETRIES 0 _ hlen
      (by unfold MAX_RETRIES; omega) (fun j _ hj => hwait j (by omega))
      (by simpa using hready)
    have e : 0 + (k - 1) + 1 = k := by omega
    rw [e] at h2
    simp only [Nat.zero_add] at h2
    have h3 : get_latest conn data garbage (device resp)
        = (decode_result (parse_blnet_data data (resp (k - 1)) conn.actualSize), k) := h2
    refine ⟨h3, ?_⟩
    intro h42
    have hl : 42 ≤ (resp (k - 1)).length := by rw [hready.1]; exact h42
    refine ⟨_, parse_blnet_data_eq data (resp (k - 1)) conn.actualSize hl, ?_⟩
    rw [h3, parse_blnet_data_eq data (resp (k - 1)) conn.actualSize hl]
    rfl

/-- Witness for C5 with 55-byte responses: ten not-ready responses exhaust the
retries after 10 queries, and six not-ready responses followed by a snapshot
return the decoded snapshot after 7 queries. -/
theorem get_latest_retry_witness :
    ((∀ i, i < 10 → not_ready_response 55 sample_wait) ∧
      get_latest { actualSize := 55 } sample_reading (fun _ => 0) (device (fun _ => sample_wait))
        = (Except.error Error.max_retries, 10)) ∧
    ((1 ≤ 7 ∧ 7 ≤ 10 ∧ (∀ i, i < 7 - 1 → not_ready_response 55 (sample_responses i))
        ∧ ready_response 55 (sample_responses (7 - 1)) ∧ 42 ≤ 55) ∧
      ∃ reading, parse_blnet_data sample_reading (sample_responses (7 - 1)) 55 = some reading
        ∧ get_latest { actualSize := 55 } sample_reading (fun _ => 0) (device sample_responses)
          = (Except.ok reading, 7)) := by
  have hw : ∀ i, i < 7 - 1 → not_ready_response 55 (sample_responses i) := by
    intro i hi
    have e : sample_responses i = sample_wait := by
      unfold sample_responses
      rw [if_pos (by omega)]
    rw [e]
    exact sample_wait_not_ready
  have hr : ready_response 55 (sample_responses (7 - 1)) := sample_snapshot_ready
  exact ⟨⟨fun _ _ => sample_wait_not_ready,
      (get_latest_retry { actualSize := 55 } sample_reading (fun _ => 0)).2.1
        (fun _ => sample_wait) (fun _ _ => sample_wait_not_ready)⟩,
    ⟨⟨by decide, by decide, hw, hr, by decide⟩,
      ((get_latest_retry { actualSize := 55 } sample_reading (fun _ => 0)).2.2
        sample_responses 7 (by decide) (by decide) hw hr).2 (by decide)⟩⟩


/-! ## Helper lemmas for the decoded fields -/

theorem convert_analog_temp (v : Nat) (hv : v < 65536) (htag : v &&& 0x7000 = 0x2000)
    (hs : v &&& 0x8000 = 0) :
    convert_analog (to_short v) = ((v &&& 0x0FFF : Nat) : ℚ) * (1 / 10) := by
  rw [convert_analog_cases v hv, if_pos htag]
  simp [spec_sign_magnitude, hs]

theorem convert_energy_in_range (mwh : Int) (kwh : Nat) (h1 : -2147483 ≤ mwh)
    (h2 : mwh ≤ 2147483) (hk : kwh < 65536) :
    convert_energy mwh kwh
      = (mwh : ℚ) * 1000 + (spec_sign_magnitude kwh 0xFFFF : ℚ) * (1 / 10) := by
  unfold convert_energy calculate_value
  rw [wrap_int_of_range _ (by omega) (by omega)]
  have h := calculate_result_natCast kwh 0xFFFF hk (by decide)
  have e : (INT16_POSITIVE_MASK : Int) = ((0xFFFF : Nat) : Int) := by decide
  rw [e, h]
  push_cast
  ring

/-! ## C6: the five analog fields -/

/-- Evaluation for C6 at the 55-byte snapshot `sample_snapshot`, whose analog
channels 0..4 decode to 10, 20, 30, 40 and 50, with the all-zero prior reading:
`parse_blnet_data` stores channel 0 in `collector`, leaves `buffer_bottom`,
`buffer_top`, `circulation` and `return_flow` at their prior value 0, and puts
the double decoded from channel 1 over `digital[6]` and `digital[7]`. The store
`&collector + sizeof(double) * i` is 8 * i doubles, not i doubles, past
`collector`. -/
theorem parse_blnet_data_analog_fields_evaluation :
    convert_analog (to_short (le16 sample_snapshot 1)) = 10
    ∧ convert_analog (to_short (le16 sample_snapshot 3)) = 20
    ∧ convert_analog (to_short (le16 sample_snapshot 5)) = 30
    ∧ convert_analog (to_short (le16 sample_snapshot 7)) = 40
    ∧ convert_analog (to_short (le16 sample_snapshot 9)) = 50
    ∧ ∃ r, parse_blnet_data sample_reading sample_snapshot 55 = some r
      ∧ r.collector = 10 ∧ r.buffer_bottom = 0 ∧ r.buffer_top = 0
      ∧ r.circulation = 0 ∧ r.return_flow = 0
      ∧ r.digital = [IntCell.int 0, IntCell.int 0, IntCell.int 0, IntCell.int 0,
          IntCell.int 0, IntCell.int 0, IntCell.double_low 20, IntCell.double_high 20,
          IntCell.int 0] := by
  have e0 : le16 sample_snapshot 1 = 0x2064 := by decide
  have e1 : le16 sample_snapshot 3 = 0x20C8 := by decide
  have e2 : le16 sample_snapshot 5 = 0x212C := by decide
  have e3 : le16 sample_snapshot 7 = 0x2190 := by decide
  have e4 : le16 sample_snapshot 9 = 0x21F4 := by decide
  have c0 : convert_analog (to_short 0x2064) = 10 := by
    rw [convert_analog_temp 0x2064 (by decide) (by decide) (by decide)]
    have m : (0x2064 &&& 0x0FFF : Nat) = 100 := by decide
    rw [m]; norm_num
  have c1 : convert_analog (to_short 0x20C8) = 20 := by
    rw [convert_analog_temp 0x20C8 (by decide) (by decide) (by decide)]
    have m : (0x20C8 &&& 0x0FFF : Nat) = 200 := by decide
    rw [m]; norm_num
  have c2 : convert_analog (to_short 0x212C) = 30 := by
    rw [convert_analog_temp 0x212C (by decide) (by decide) (by decide)]
    have m : (0x212C &&& 0x0FFF : Nat) = 300 := by decide
    rw [m]; norm_num
  have c3 : convert_analog (to_short 0x2190) = 40 := by
    rw [convert_analog_temp 0x2190 (by decide) (by decide) (by decide)]
    have m : (0x2190 &&& 0x0FFF : Nat) = 400 := by decide
    rw [m]; norm_num
  have c4 : convert_analog (to_short 0x21F4) = 50 := by
    rw [convert_analog_temp 0x21F4 (by decide) (by decide) (by decide)]
    have m : (0x21F4 &&& 0x0FFF : Nat) = 500 := by decide
    rw [m]; norm_num
  rw [e0, e1, e2, e3, e4]
  refine ⟨c0, c1, c2, c3, c4, _, parse_blnet_data_eq sample_reading sample_snapshot 55
    (by decide), ?_, rfl, rfl, rfl, rfl, ?_⟩
  · show convert_analog (to_short (le16 sample_snapshot 1)) = 10
    rw [e0]; exact c0
  · show (sample_reading.digital.set 6 _).set 7 _ = _
    rw [e1, c1]
    rfl

/-! ## C7: energy decode -/

/-- Claim C7 as amended: for every `mwh` with `-2147483 ≤ mwh ≤ 2147483`, so
that the `int` product `mwh * 1000` is representable (this includes every 16-bit
MWh field), and every 16-bit `kwh` field, `convert_energy mwh kwh` equals
`mwh * 1000 + d * 0.1` where `d` is the sign-magnitude value of `kwh` with
magnitude mask `0xFFFF` and sign bit `0x8000`. In particular
`convert_energy 2 0x0032 = 2005`. -/
theorem convert_energy_decode :
    (∀ (mwh : Int) (kwh : Nat), -2147483 ≤ mwh → mwh ≤ 2147483 → kwh < 65536 →
      convert_energy mwh kwh
        = (mwh : ℚ) * 1000 + (spec_sign_magnitude kwh 0xFFFF : ℚ) * (1 / 10))
    ∧ convert_energy 2 0x0032 = 2005 := by
  refine ⟨fun mwh kwh h1 h2 hk => convert_energy_in_range mwh kwh h1 h2 hk, ?_⟩
  have h := convert_energy_in_range 2 0x0032 (by decide) (by decide) (by decide)
  have d : spec_sign_magnitude 0x0032 0xFFFF = 50 := by decide
  rw [d] at h
  have e : convert_energy 2 0x0032 = convert_energy 2 ((0x0032 : Nat) : Int) := rfl
  rw [e, h]
  norm_num

/-- Witness for the amended C7 at `mwh = 65535` and the `kwh` field `0xFFFF`. -/
theorem convert_energy_decode_witness :
    ((-2147483 : Int) ≤ 65535 ∧ (65535 : Int) ≤ 2147483 ∧ 0xFFFF < 65536) ∧
    convert_energy 65535 ((0xFFFF : Nat) : Int)
      = ((65535 : Int) : ℚ) * 1000 + (spec_sign_magnitude 0xFFFF 0xFFFF : ℚ) * (1 / 10) :=
  ⟨⟨by decide, by decide, by decide⟩,
    convert_energy_decode.1 65535 0xFFFF (by decide) (by decide) (by decide)⟩

/-- Counterexample to C7 as stated: at `mwh = 2147484`, `kwh = 0` the `int`
product `mwh * 1000` exceeds `INT_MAX`; the wrapped product gives
`convert_energy 2147484 0 = -2147483296`, while `mwh * 1000 + d * 0.1` is
`2147484000`. -/
theorem convert_energy_overflow_counterexample :
    convert_energy 2147484 ((0 : Nat) : Int) = -2147483296
    ∧ ((2147484 : Int) : ℚ) * 1000 + (spec_sign_magnitude 0 0xFFFF : ℚ) * (1 / 10) = 2147484000
    ∧ convert_energy 2147484 ((0 : Nat) : Int)
      ≠ ((2147484 : Int) : ℚ) * 1000 + (spec_sign_magnitude 0 0xFFFF : ℚ) * (1 / 10) := by
  have w : wrap_int (2147484 * 1000) = -2147483296 := by decide
  have c : calculate_result ((0 : Nat) : Int) INT16_POSITIVE_MASK SIGN_BIT = 0 := by decide
  have d : spec_sign_magnitude 0 0xFFFF = 0 := by decide
  have h : convert_energy 2147484 ((0 : Nat) : Int) = -2147483296 := by
    unfold convert_energy calculate_value
    rw [w, c]
    norm_num
  refine ⟨h, ?_, ?_⟩
  · rw [d]; norm_num
  · rw [h, d]; norm_num

/-! ## C8: where the energy comes from -/

/-- Claim C8: for every snapshot buffer of at least 42 bytes `parse_blnet_data`
returns a reading whose energy is `convert_energy mwh kwh`, with `kwh` the
little-endian 16-bit field at byte offsets 38..39 and `mwh` the one at 40..41;
no other byte influences it: any other buffer of at least 42 bytes that agrees
on bytes 38..41 gives the same energy, whatever the prior reading. -/
theorem parse_blnet_data_energy (p : BLNETData) (data : List Byte) (data_len : Nat)
    (h : 42 ≤ data.length) :
    ∃ r, parse_blnet_data p data data_len = some r
      ∧ r.energy = convert_energy (le16 data 40) (le16 data 38)
      ∧ ∀ (p2 : BLNETData) (data2 : List Byte) (len2 : Nat), 42 ≤ data2.length →
          (∀ i, 38 ≤ i → i < 42 → data2.getD i 0 = data.getD i 0) →
          ∃ r2, parse_blnet_data p2 data2 len2 = some r2 ∧ r2.energy = r.energy := by
  refine ⟨_, parse_blnet_data_eq p data data_len h, rfl, ?_⟩
  intro p2 data2 len2 h2 hsame
  refine ⟨_, parse_blnet_data_eq p2 data2 len2 h2, ?_⟩
  show convert_energy (le16 data2 40) (le16 data2 38)
    = convert_energy (le16 data 40) (le16 data 38)
  unfold le16
  rw [hsame 38 (by omega) (by omega), hsame 39 (by omega) (by omega),
    hsame 40 (by omega) (by omega), hsame 41 (by omega) (by omega)]

/-- Witness for C8 at the 55-byte snapshot `sample_snapshot`. -/
theorem parse_blnet_data_energy_witness :
    42 ≤ sample_snapshot.length ∧
    ∃ r, parse_blnet_data sample_reading sample_snapshot 55 = some r
      ∧ r.energy = convert_energy (le16 sample_snapshot 40) (le16 sample_snapshot 38)
      ∧ ∀ (p2 : BLNETData) (data2 : List Byte) (len2 : Nat), 42 ≤ data2.length →
          (∀ i, 38 ≤ i → i < 42 → data2.getD i 0 = sample_snapshot.getD i 0) →
          ∃ r2, parse_blnet_data p2 data2 len2 = some r2 ∧ r2.energy = r.energy :=
  ⟨by decide, parse_blnet_data_energy sample_reading sample_snapshot 55 (by decide)⟩

/-! ## Helper lemmas for the sign-magnitude round trip -/

theorem two_pow_or_of_lt (k y : Nat) (hy : y < 2 ^ k) : 2 ^ k ||| y = 2 ^ k + y := by
  apply Nat.eq_of_testBit_eq
  intro i
  rw [Nat.testBit_or]
  rcases Nat.lt_trichotomy i k with h | h | h
  · rw [Nat.testBit_two_pow_add_gt h, Nat.testBit_two_pow]
    have : ¬ k = i := by omega
    simp [this]
  · subst h
    rw [Nat.testBit_two_pow_add_eq, Nat.testBit_two_pow, Nat.testBit_lt_two_pow hy]
    simp
  · have h1 : 2 ^ k + y < 2 ^ i := by
      have : 2 ^ (k + 1) ≤ 2 ^ i := Nat.pow_le_pow_right (by decide) h
      have e : 2 ^ (k + 1) = 2 * 2 ^ k := by ring
      omega
    have h2 : y < 2 ^ i := by omega
    have h3 : 2 ^ k < 2 ^ i := by omega
    rw [Nat.testBit_lt_two_pow h1, Nat.testBit_lt_two_pow h2, Nat.testBit_lt_two_pow h3]
    rfl

theorem xor_two_pow_sub_one (k x : Nat) (hx : x < 2 ^ k) : x ^^^ (2 ^ k - 1) = 2 ^ k - 1 - x := by
  apply Nat.eq_of_testBit_eq
  intro i
  have e : 2 ^ k - 1 - x = 2 ^ k - (x + 1) := by omega
  rw [e, Nat.testBit_two_pow_sub_succ hx, Nat.testBit_xor, Nat.testBit_two_pow_sub_one]
  by_cases hi : i < k
  · simp [hi]
  · have : x.testBit i = false :=
      Nat.testBit_lt_two_pow (lt_of_lt_of_le hx (Nat.pow_le_pow_right (by decide) (by omega)))
    simp [hi, this]

theorem and_sign_of_lt (a : Nat) (ha : a < 2 ^ 15) : a &&& 0x8000 = 0 := by
  have h := Nat.and_two_pow a 15
  rw [Nat.testBit_lt_two_pow ha] at h
  simpa using h

theorem and_sign_of_add (y : Nat) (hy : y < 2 ^ 15) : (2 ^ 15 + y) &&& 0x8000 = 0x8000 := by
  have h := Nat.and_two_pow (2 ^ 15 + y) 15
  rw [Nat.testBit_two_pow_add_eq, Nat.testBit_lt_two_pow hy] at h
  simpa using h

theorem spec_roundtrip_nonneg (k : Nat) (n : Int) (h0 : 0 ≤ n) (h1 : n < 2 ^ k)
    (h2 : n < 2 ^ 15) :
    spec_sign_magnitude (spec_encode n (2 ^ k - 1)) (2 ^ k - 1) = n := by
  obtain ⟨a, rfl⟩ := Int.eq_ofNat_of_zero_le h0
  have ha : a < 2 ^ k := by exact_mod_cast h1
  have ha2 : a < 2 ^ 15 := by exact_mod_cast h2
  unfold spec_sign_magnitude spec_encode
  simp only [h0, if_true, Int.toNat_ofNat]
  rw [if_pos (and_sign_of_lt a ha2), Nat.and_pow_two_sub_one_eq_mod, Nat.mod_eq_of_lt ha]

theorem spec_roundtrip_neg_small (k : Nat) (hk : k ≤ 15) (n : Int) (h0 : n < 0)
    (h1 : -(2 ^ k : Int) ≤ n) :
    spec_sign_magnitude (spec_encode n (2 ^ k - 1)) (2 ^ k - 1) = n := by
  have hP : (2 : Nat) ^ k ≤ 2 ^ 15 := Nat.pow_le_pow_right (by decide) hk
  have hP0 : 0 < (2 : Nat) ^ k := Nat.pow_pos (by decide)
  have hcast : ((2 ^ k : Nat) : Int) = (2 : Int) ^ k := by push_cast; rfl
  obtain ⟨x, hx⟩ : ∃ x : Nat, (x : Int) = n + 2 ^ k := ⟨(n + 2 ^ k).toNat, by omega⟩
  have hxlt : x < 2 ^ k := by omega
  have henc : spec_encode n (2 ^ k - 1) = 2 ^ 15 + x := by
    unfold spec_encode
    rw [if_neg (by omega)]
    have e : (n + ((2 ^ k - 1 : Nat) : Int) + 1).toNat = x := by omega
    rw [e, Nat.and_pow_two_sub_one_eq_mod, Nat.mod_eq_of_lt hxlt]
    exact two_pow_or_of_lt 15 x (by omega)
  have hmod : (2 ^ 15 + x) % 2 ^ k = x := by
    obtain ⟨c, hc⟩ : (2 : Nat) ^ k ∣ 2 ^ 15 := Nat.pow_dvd_pow 2 hk
    rw [hc, Nat.mul_add_mod, Nat.mod_eq_of_lt hxlt]
  unfold spec_sign_magnitude
  rw [henc, and_sign_of_add x (by omega), if_neg (by decide),
    Nat.and_pow_two_sub_one_eq_mod, hmod, xor_two_pow_sub_one k x hxlt]
  omega

theorem spec_roundtrip_neg_full (n : Int) (h0 : n < 0) (h1 : -32768 ≤ n) :
    spec_sign_magnitude (spec_encode n 0xFFFF) 0xFFFF = n := by
  obtain ⟨y, hy⟩ : ∃ y : Nat, (y : Int) = n + 32768 := ⟨(n + 32768).toNat, by omega⟩
  have hylt : y < 2 ^ 15 := by omega
  have e1 : (n + ((0xFFFF : Nat) : Int) + 1).toNat = 2 ^ 15 + y := by omega
  have e2 : (2 ^ 15 + y) &&& 0xFFFF = 2 ^ 15 + y := by
    have h := Nat.and_pow_two_sub_one_eq_mod (2 ^ 15 + y) 16
    rw [Nat.mod_eq_of_lt (by omega)] at h
    exact h
  have henc : spec_encode n 0xFFFF = 2 ^ 15 + y := by
    unfold spec_encode
    rw [if_neg (by omega), e1, e2, ← two_pow_or_of_lt 15 y hylt]
    show 2 ^ 15 ||| (2 ^ 15 ||| y) = 2 ^ 15 ||| y
    rw [← Nat.or_assoc, Nat.or_self]
  have hx := xor_two_pow_sub_one 16 (2 ^ 15 + y) (by omega)
  unfold spec_sign_magnitude
  rw [henc, and_sign_of_add y hylt, if_neg (by decide), e2]
  have hx2 : (2 ^ 15 + y) ^^^ 0xFFFF = 2 ^ 16 - 1 - (2 ^ 15 + y) := hx
  rw [hx2]
  omega


theorem spec_encode_lt (n : Int) (m : Nat) (hn : n < 32768) (hm : m < 65536) :
    spec_encode n m < 65536 := by
  unfold spec_encode
  split
  · omega
  · have h1 : (n + (m : Int) + 1).toNat &&& m < 2 ^ 16 := Nat.and_lt_two_pow _ (by omega)
    exact Nat.or_lt_two_pow (by decide) h1

theorem spec_roundtrip (m : Nat) (n : Int)
    (h : ((m = 0x0FFF ∨ m = 0x01FF) ∧ -((m : Int) + 1) ≤ n ∧ n ≤ m)
      ∨ (m = 0xFFFF ∧ -32768 ≤ n ∧ n ≤ 32767)) :
    spec_sign_magnitude (spec_encode n m) m = n := by
  rcases h with ⟨hm | hm, h1, h2⟩ | ⟨hm, h1, h2⟩
  · subst hm
    by_cases h0 : 0 ≤ n
    · exact spec_roundtrip_nonneg 12 n h0 (by omega) (by omega)
    · exact spec_roundtrip_neg_small 12 (by decide) n (by omega) (by omega)
  · subst hm
    by_cases h0 : 0 ≤ n
    · exact spec_roundtrip_nonneg 9 n h0 (by omega) (by omega)
    · exact spec_roundtrip_neg_small 9 (by decide) n (by omega) (by omega)
  · subst hm
    by_cases h0 : 0 ≤ n
    · exact spec_roundtrip_nonneg 16 n h0 (by omega) (by omega)
    · exact spec_roundtrip_neg_full n (by omega) h1

/-! ## C9: decode undoes encode -/

/-- Claim C9: for each production mask `m` in `0x0FFF`, `0x01FF` and every
integer `n` with `-(m+1) ≤ n ≤ m`, and for `m = 0xFFFF` and every `n` with
`-32768 ≤ n ≤ 32767`: encoding `n` as `n` itself when `n ≥ 0` and as
`0x8000 OR ((n + m + 1) AND m)` when `n < 0` (`spec_encode`), then decoding with
`calculate_value (., 1, m, 0x8000)`, returns `n`. -/
theorem sign_magnitude_roundtrip (m : Nat) (n : Int)
    (h : ((m = 0x0FFF ∨ m = 0x01FF) ∧ -((m : Int) + 1) ≤ n ∧ n ≤ m)
      ∨ (m = 0xFFFF ∧ -32768 ≤ n ∧ n ≤ 32767)) :
    calculate_value ((spec_encode n m : Nat) : Int) 1 (m : Int) SIGN_BIT = (n : ℚ) := by
  have hm : m < 65536 := by
    rcases h with ⟨hm | hm, _, _⟩ | ⟨hm, _, _⟩ <;> omega
  have hn : n < 32768 := by
    rcases h with ⟨hm | hm, _, _⟩ | ⟨hm, _, _⟩ <;> omega
  unfold calculate_value
  rw [calculate_result_natCast _ m (spec_encode_lt n m hn hm) hm, spec_roundtrip m n h]
  simp

/-- Witness for C9 at mask `0x0FFF` and `n = -3996`. -/
theorem sign_magnitude_roundtrip_witness :
    (((0x0FFF : Nat) = 0x0FFF ∨ (0x0FFF : Nat) = 0x01FF)
      ∧ -(((0x0FFF : Nat) : Int) + 1) ≤ -3996 ∧ (-3996 : Int) ≤ ((0x0FFF : Nat) : Int)) ∧
    calculate_value ((spec_encode (-3996) 0x0FFF : Nat) : Int) 1 ((0x0FFF : Nat) : Int) SIGN_BIT
      = ((-3996 : Int) : ℚ) :=
  ⟨⟨Or.inl rfl, by decide, by decide⟩,
    sign_magnitude_roundtrip 0x0FFF (-3996) (Or.inl ⟨Or.inl rfl, by decide, by decide⟩)⟩

/-! ## C10: the active flag tested by `convert_power` -/

/-- Evaluation for C10: `convert_power` tests `active & position`, not
`active & (1 << position)`. With `position` the channel index, channel 0 reads
as not installed (-1) although bit 0 of `active = 1` is set, channel 1 reads as
not installed although bit 1 of `active = 2` is set, and channel 1 is decoded
(2560 / 2560 = 1) although bit 1 of `active = 1` is clear. The sibling
`convert_digital` shifts: it reports bit 0 of 1 and bit 1 of 2 as on. -/
theorem convert_power_flag_evaluation :
    Nat.testBit 1 0 = true ∧ convert_power 2560 1 0 = -1
    ∧ Nat.testBit 2 1 = true ∧ convert_power 2560 2 1 = -1
    ∧ Nat.testBit 1 1 = false ∧ convert_power 2560 1 1 = 1
    ∧ convert_digital 1 0 = DIGITAL_ON ∧ convert_digital 2 1 = DIGITAL_ON := by
  have a0 : int_and 1 0 = 0 := by decide
  have a1 : int_and 2 1 = 0 := by decide
  have a2 : int_and 1 1 ≠ 0 := by decide
  have c : calculate_result 2560 (wrap_int INT32_MASK) (wrap_int INT32_SIGN) = 2560 := by
    decide
  refine ⟨by decide, ?_, by decide, ?_, by decide, ?_, by decide, by decide⟩
  · unfold convert_power
    rw [a0]; simp
  · unfold convert_power
    rw [a1]; simp
  · unfold convert_power calculate_value
    rw [if_pos a2, c]
    norm_num

/-! ## Helper lemmas for the instrumented query engine -/

theorem query_traced_fst (ex : Exchange) (response : List Byte) (resp_len : Nat) :
    (query_traced ex response resp_len).1 = query ex response resp_len := by
  unfold query_traced query
  cases send_command ex with
  | error e => rfl
  | ok u =>
    cases receive_response ex response resp_len with
    | error e => rfl
    | ok r =>
      obtain ⟨cnt, buf⟩ := r
      by_cases h : checksum buf = true <;> simp [h]

theorem query_traced_cases (ex : Exchange) (response : List Byte) (resp_len : Nat) :
    (∃ e, query_traced ex response resp_len = (Except.error e, []))
    ∨ (∃ buf, checksum buf = true
        ∧ query_traced ex response resp_len = (Except.ok buf, [Event.checked buf]))
    ∨ (∃ buf, checksum buf = false
        ∧ query_traced ex response resp_len
          = (Except.error Error.checksum_error, [Event.checked buf])) := by
  unfold query_traced
  cases send_command ex with
  | error e => exact Or.inl ⟨e, rfl⟩
  | ok u =>
    cases receive_response ex response resp_len with
    | error e => exact Or.inl ⟨e, rfl⟩
    | ok r =>
      obtain ⟨cnt, buf⟩ := r
      by_cases h : checksum buf = true
      · exact Or.inr (Or.inl ⟨buf, h, by simp [h]⟩)
      · have h2 : checksum buf = false := by simpa using h
        exact Or.inr (Or.inr ⟨buf, h2, by simp [h2]⟩)

theorem get_latest_loop_traced_fst (conn : BLNETConn) (data : BLNETData)
    (net : Nat → Exchange) :
    ∀ n i : Nat, ∀ response : List Byte,
      (get_latest_loop_traced conn data net n i response).1
        = get_latest_loop conn data net n i response := by
  intro n
  induction n with
  | zero => intro i response; rfl
  | succ n ih =>
    intro i response
    rw [get_latest_loop_traced, get_latest_loop, ← query_traced_fst]
    rcases query_traced_cases (net i) response conn.actualSize with
      ⟨e, h⟩ | ⟨buf, _, h⟩ | ⟨buf, _, h⟩
    · rw [h]
    · rw [h]
      simp only
      cases hb : buf[0]? with
      | none => rfl
      | some first =>
        simp only
        by_cases hw : first.val ≠ WAIT_TIME
        · rw [if_pos hw, if_pos hw]
        · rw [if_neg hw, if_neg hw]
          exact ih (i + 1) buf
    · rw [h]

theorem get_latest_loop_traced_parsed (conn : BLNETConn) (data : BLNETData)
    (net : Nat → Exchange) :
    ∀ n i : Nat, ∀ response buf : List Byte,
      Event.parsed buf ∈ (get_latest_loop_traced conn data net n i response).2 →
      checksum buf = true := by
  intro n
  induction n with
  | zero => intro i response buf h; simp [get_latest_loop_traced] at h
  | succ n ih =>
    intro i response buf hmem
    rw [get_latest_loop_traced] at hmem
    rcases query_traced_cases (net i) response conn.actualSize with
      ⟨e, h⟩ | ⟨b0, hc, h⟩ | ⟨b0, hc, h⟩
    · rw [h] at hmem; simp at hmem
    · rw [h] at hmem
      simp only at hmem
      cases hb : b0[0]? with
      | none => rw [hb] at hmem; simp at hmem
      | some first =>
        rw [hb] at hmem
        simp only at hmem
        by_cases hw : first.val ≠ WAIT_TIME
        · rw [if_pos hw] at hmem
          simp at hmem
          rw [hmem]; exact hc
        · rw [if_neg hw] at hmem
          simp at hmem
          exact ih (i + 1) b0 buf hmem
    · rw [h] at hmem; simp at hmem

theorem get_latest_loop_traced_failed (conn : BLNETConn) (data : BLNETData)
    (net : Nat → Exchange) :
    ∀ n i : Nat, ∀ response buf : List Byte,
      Event.checked buf ∈ (get_latest_loop_traced conn data net n i response).2 →
      checksum buf = false →
      (get_latest_loop_traced conn data net n i response).1.1
          = Except.error Error.checksum_error
        ∧ (get_latest_loop_traced conn data net n i response).2.getLast?
          = some (Event.checked buf)
        ∧ (∀ b, Event.parsed b ∉ (get_latest_loop_traced conn data net n i response).2)
        ∧ (get_latest_loop_traced conn data net n i response).1.2
          = i + (get_latest_loop_traced conn data net n i response).2.length := by
  intro n
  induction n with
  | zero => intro i response buf h; simp [get_latest_loop_traced] at h
  | succ n ih =>
    intro i response buf hmem hbad
    rw [get_latest_loop_traced] at hmem ⊢
    rcases query_traced_cases (net i) response conn.actualSize with
      ⟨e, h⟩ | ⟨b0, hc, h⟩ | ⟨b0, hc, h⟩
    · rw [h] at hmem; simp at hmem
    · rw [h] at hmem ⊢
      simp only at hmem ⊢
      have hne : buf ≠ b0 := by
        intro e; rw [e, hc] at hbad; exact Bool.noConfusion hbad
      cases hb : b0[0]? with
      | none => rw [hb] at hmem; simp at hmem; exact absurd hmem hne
      | some first =>
        rw [hb] at hmem
        simp only at hmem ⊢
        by_cases hw : first.val ≠ WAIT_TIME
        · rw [if_pos hw] at hmem
          simp at hmem
          exact absurd hmem hne
        · rw [if_neg hw] at hmem ⊢
          simp only [List.singleton_append, List.mem_cons, Event.checked.injEq] at hmem
          rcases hmem with hmem | hmem
          · exact absurd hmem hne
          · obtain ⟨h1, h2, h3, h4⟩ := ih (i + 1) b0 buf hmem hbad
            have hnil : (get_latest_loop_traced conn data net n (i + 1) b0).2 ≠ [] :=
              List.ne_nil_of_mem hmem
            refine ⟨h1, ?_, ?_, ?_⟩
            · show (Event.checked b0
                  :: (get_latest_loop_traced conn data net n (i + 1) b0).2).getLast? = _
              revert hnil h2
              cases (get_latest_loop_traced conn data net n (i + 1) b0).2 with
              | nil => intro _ hnil; exact absurd rfl hnil
              | cons x xs => intro h2 _; rw [List.getLast?_cons_cons]; exact h2
            · intro b hb2
              simp only [List.singleton_append, List.mem_cons] at hb2
              rcases hb2 with hb2 | hb2
              · exact Event.noConfusion hb2
              · exact h3 b hb2
            · simp only [List.singleton_append, List.length_cons]
              omega
    · rw [h] at hmem ⊢
      simp only [List.mem_singleton, Event.checked.injEq] at hmem
      subst hmem
      simp

theorem get_latest_loop_traced_ok (conn : BLNETConn) (data : BLNETData)
    (net : Nat → Exchange) :
    ∀ n i : Nat, ∀ (response : List Byte) (reading : BLNETData),
      (get_latest_loop_traced conn data net n i response).1.1 = Except.ok reading →
      ∃ buf, Event.parsed buf ∈ (get_latest_loop_traced conn data net n i response).2
        ∧ parse_blnet_data data buf conn.actualSize = some reading := by
  intro n
  induction n with
  | zero => intro i response reading h; simp [get_latest_loop_traced] at h
  | succ n ih =>
    intro i response reading hok
    rw [get_latest_loop_traced] at hok ⊢
    rcases query_traced_cases (net i) response conn.actualSize with
      ⟨e, h⟩ | ⟨b0, hc, h⟩ | ⟨b0, hc, h⟩
    · rw [h] at hok; simp at hok
    · rw [h] at hok ⊢
      simp only at hok ⊢
      cases hb : b0[0]? with
      | none => rw [hb] at hok; simp at hok
      | some first =>
        rw [hb] at hok
        simp only at hok ⊢
        by_cases hw : first.val ≠ WAIT_TIME
        · rw [if_pos hw] at hok ⊢
          refine ⟨b0, by simp, ?_⟩
          cases hp : parse_blnet_data data b0 conn.actualSize with
          | none => rw [hp] at hok; simp [decode_result] at hok
          | some r =>
            rw [hp] at hok
            simp only [decode_result, Except.ok.injEq] at hok
            rw [hok]
        · rw [if_neg hw] at hok ⊢
          obtain ⟨buf, h1, h2⟩ := ih (i + 1) b0 reading hok
          exact ⟨buf, by simp [h1], h2⟩
    · rw [h] at hok; simp at hok

/-! ## C11: a response that fails the checksum is never decoded -/

/-- Claim C11: a response that fails the checksum is never decoded. For every
transport script, in the run of `get_latest` with its `checksum` and
`parse_blnet_data` calls recorded (`get_latest_traced`, whose result is that of
`get_latest`): `query` fails with a checksum error whenever the buffer it
received fails `checksum`; if on some attempt the checked buffer fails
`checksum`, `get_latest` ends with the checksum error, that check is the last
recorded call (no retry; the number of queries is the number of checks), and
`parse_blnet_data` is not called, so no reading is produced. Conversely every
buffer `parse_blnet_data` is called on passed `checksum`, and every reading
returned comes from such a call. -/
theorem checksum_failure_never_decoded (conn : BLNETConn) (data : BLNETData)
    (garbage : Nat → Byte) (net : Nat → Exchange) :
    (get_latest_traced conn data garbage net).1 = get_latest conn data garbage net
    ∧ (∀ (ex : Exchange) (response : List Byte) (resp_len cnt : Nat) (buf : List Byte),
        send_command ex = Except.ok () →
        receive_response ex response resp_len = Except.ok (cnt, buf) →
        checksum buf = false →
        query ex response resp_len = Except.error Error.checksum_error)
    ∧ (∀ buf, Event.checked buf ∈ (get_latest_traced conn data garbage net).2 →
        checksum buf = false →
        (get_latest conn data garbage net).1 = Except.error Error.checksum_error
        ∧ (get_latest_traced conn data garbage net).2.getLast? = some (Event.checked buf)
        ∧ (∀ b, Event.parsed b ∉ (get_latest_traced conn data garbage net).2)
        ∧ (get_latest conn data garbage net).2
            = (get_latest_traced conn data garbage net).2.length)
    ∧ (∀ buf, Event.parsed buf ∈ (get_latest_traced conn data garbage net).2 →
        checksum buf = true)
    ∧ (∀ reading, (get_latest conn data garbage net).1 = Except.ok reading →
        ∃ buf, Event.parsed buf ∈ (get_latest_traced conn data garbage net).2
          ∧ checksum buf = true
          ∧ parse_blnet_data data buf conn.actualSize = some reading) := by
  have hfst : (get_latest_traced conn data garbage net).1 = get_latest conn data garbage net :=
    get_latest_loop_traced_fst conn data net MAX_RETRIES 0 _
  refine ⟨hfst, ?_, ?_, ?_, ?_⟩
  · intro ex response resp_len cnt buf hs hr hc
    unfold query
    rw [hs]
    simp only
    rw [hr]
    simp [hc]
  · intro buf hmem hbad
    obtain ⟨h1, h2, h3, h4⟩ :=
      get_latest_loop_traced_failed conn data net MAX_RETRIES 0 _ buf hmem hbad
    rw [← hfst]
    refine ⟨h1, h2, h3, ?_⟩
    rw [Nat.zero_add] at h4
    exact h4
  · intro buf hmem
    exact get_latest_loop_traced_parsed conn data net MAX_RETRIES 0 _ buf hmem
  · intro reading hok
    rw [← hfst] at hok
    obtain ⟨buf, h1, h2⟩ := get_latest_loop_traced_ok conn data net MAX_RETRIES 0 _ reading hok
    exact ⟨buf, h1, get_latest_loop_traced_parsed conn data net MAX_RETRIES 0 _ buf h1, h2⟩

/-- Witness for C11 on 3-byte responses: the third response `01 02 04` fails
the checksum, so `get_latest` stops there with the checksum error after 3
queries and parses nothing. -/
theorem checksum_failure_never_decoded_witness :
    (Event.checked [0x01, 0x02, 0x04] ∈
        (get_latest_traced { actualSize := 3 } sample_reading (fun _ => 0)
          sample_corrupt_net).2
      ∧ checksum [0x01, 0x02, 0x04] = false)
    ∧ ((get_latest { actualSize := 3 } sample_reading (fun _ => 0) sample_corrupt_net).1
        = Except.error Error.checksum_error
      ∧ (get_latest_traced { actualSize := 3 } sample_reading (fun _ => 0)
          sample_corrupt_net).2.getLast? = some (Event.checked [0x01, 0x02, 0x04])
      ∧ (∀ b, Event.parsed b ∉
          (get_latest_traced { actualSize := 3 } sample_reading (fun _ => 0)
            sample_corrupt_net).2)
      ∧ (get_latest { actualSize := 3 } sample_reading (fun _ => 0) sample_corrupt_net).2
          = (get_latest_traced { actualSize := 3 } sample_reading (fun _ => 0)
              sample_corrupt_net).2.length) :=
  ⟨⟨by decide, by decide⟩,
    (checksum_failure_never_decoded { actualSize := 3 } sample_reading (fun _ => 0)
      sample_corrupt_net).2.2.1 [0x01, 0x02, 0x04] (by decide) (by decide)⟩

/-! ## C12: short reads -/

/-- Claim C12 as amended: `receive_response` fails, with the transport error,
exactly when the underlying read returns a negative value. For every read of
`n ≥ 0` bytes, also when `n` is less than the expected length, it returns `n`
with the first `n` bytes of the buffer replaced by the bytes read and the rest
of the buffer left as it was; `query` discards `n` and, when the send went
through, runs `checksum` over the whole buffer. -/
theorem receive_response_short_read (ex : Exchange) (buffer : List Byte) (length : Nat)
    (hlen : buffer.length = length) :
    (ex.recv = none →
      receive_response ex buffer length = Except.error Error.receive_failed)
    ∧ (∀ bytes, ex.recv = some bytes →
        ∃ buf, receive_response ex buffer length = Except.ok (min bytes.length length, buf)
          ∧ buf.length = length
          ∧ buf.take (min bytes.length length) = bytes.take length
          ∧ buf.drop (min bytes.length length) = buffer.drop (min bytes.length length)
          ∧ (ex.send_ok = true →
              query ex buffer length
                = if checksum buf then Except.ok buf
                  else Except.error Error.checksum_error)) := by
  constructor
  · intro h
    simp [receive_response, h]
  · intro bytes h
    have hl : (bytes.take length).length = min bytes.length length := by
      rw [List.length_take, Nat.min_comm]
    have hle : min bytes.length length ≤ buffer.length := by
      rw [hlen]; exact Nat.min_le_right _ _
    refine ⟨bytes.take length ++ buffer.drop (min bytes.length length), ?_, ?_, ?_, ?_, ?_⟩
    · simp [receive_response, h, hl]
    · rw [List.length_append, hl, List.length_drop]
      omega
    · rw [List.take_left' hl]
    · rw [List.drop_left' hl]
    · intro hs
      simp [query, send_command, hs, receive_response, h, hl]

/-- Witness for the amended C12: a read of 2 bytes into a 3-byte buffer, after a
send that went through. -/
theorem receive_response_short_read_witness :
    ([0x00, 0x00, 0x03] : List Byte).length = 3
    ∧ ∃ buf, receive_response { send_ok := true, recv := some [0x01, 0x02] }
          [0x00, 0x00, 0x03] 3
          = Except.ok (min ([0x01, 0x02] : List Byte).length 3, buf)
      ∧ buf.length = 3
      ∧ query { send_ok := true, recv := some [0x01, 0x02] } [0x00, 0x00, 0x03] 3
          = if checksum buf then Except.ok buf else Except.error Error.checksum_error := by
  obtain ⟨buf, h1, h2, _, _, h5⟩ :=
    (receive_response_short_read { send_ok := true, recv := some [0x01, 0x02] }
      [0x00, 0x00, 0x03] 3 (by decide)).2 [0x01, 0x02] rfl
  exact ⟨by decide, buf, h1, h2, h5 rfl⟩

/-- Counterexample to C12 as stated: the read delivers 2 of the 3 expected
bytes; `receive_response` does not fail but returns 2, and `query` runs the
checksum over `01 02 03`, whose last byte was in the buffer from before, and
accepts it. -/
theorem receive_response_short_read_counterexample :
    (2 : Nat) < 3
    ∧ receive_response { send_ok := true, recv := some [0x01, 0x02] } [0x00, 0x00, 0x03] 3
        = Except.ok (2, [0x01, 0x02, 0x03])
    ∧ checksum [0x01, 0x02, 0x03] = true
    ∧ query { send_ok := true, recv := some [0x01, 0x02] } [0x00, 0x00, 0x03] 3
        = Except.ok [0x01, 0x02, 0x03] := by
  refine ⟨by decide, rfl, by decide, rfl⟩

/-! ## C13: the reserved slots -/

/-- Evaluation for C13 at the 55-byte snapshot `sample_snapshot` and the
all-zero prior reading: `speed[0]` and `power[0..1]` are as before, but the
`digital` array is not. The store of analog channel 1 (decoded value 20) at
`&collector + sizeof(double) * 1`, byte offset 64 of the struct, overwrites
`digital[6]` and `digital[7]` with the two halves of that double. -/
theorem parse_blnet_data_reserved_slots_evaluation :
    ∃ r, parse_blnet_data sample_reading sample_snapshot 55 = some r
      ∧ r.speed = sample_reading.speed
      ∧ r.power = sample_reading.power
      ∧ r.digital ≠ sample_reading.digital
      ∧ sample_reading.digital[6]? = some (IntCell.int 0)
      ∧ sample_reading.digital[7]? = some (IntCell.int 0)
      ∧ r.digital[6]? = some (IntCell.double_low 20)
      ∧ r.digital[7]? = some (IntCell.double_high 20) := by
  have e1 : le16 sample_snapshot 3 = 0x20C8 := by decide
  have c1 : convert_analog (to_short 0x20C8) = 20 := by
    rw [convert_analog_temp 0x20C8 (by decide) (by decide) (by decide)]
    have m : (0x20C8 &&& 0x0FFF : Nat) = 200 := by decide
    rw [m]; norm_num
  have hd : (sample_reading.digital.set 6
        (IntCell.double_low (convert_analog (to_short (le16 sample_snapshot 3))))).set 7
        (IntCell.double_high (convert_analog (to_short (le16 sample_snapshot 3))))
      = [IntCell.int 0, IntCell.int 0, IntCell.int 0, IntCell.int 0, IntCell.int 0,
          IntCell.int 0, IntCell.double_low 20, IntCell.double_high 20, IntCell.int 0] := by
    rw [e1, c1]; rfl
  refine ⟨_, parse_blnet_data_eq sample_reading sample_snapshot 55 (by decide),
    rfl, rfl, ?_, rfl, rfl, ?_, ?_⟩
  · show (sample_reading.digital.set 6 _).set 7 _ ≠ sample_reading.digital
    rw [hd]
    simp [sample_reading, List.replicate]
  · show ((sample_reading.digital.set 6 _).set 7 _)[6]? = _
    rw [hd]; rfl
  · show ((sample_reading.digital.set 6 _).set 7 _)[7]? = _
    rw [hd]; rfl

/-! ## C14: speed decode -/

/-- Claim C14: for every speed byte `v` in 0..255, `convert_speed v` is the
inactive sentinel -1 if the top bit `0x80` of `v` is set and otherwise the low
five bits `v AND 0x1F`; hence every result is -1 or an integer in 0..31. -/
theorem convert_speed_decode (v : Nat) (hv : v < 256) :
    convert_speed (v : Int) = (if v &&& 0x80 ≠ 0 then -1 else ((v &&& 0x1F : Nat) : ℚ))
    ∧ (convert_speed (v : Int) = -1
        ∨ ∃ k : Nat, k ≤ 31 ∧ convert_speed (v : Int) = (k : ℚ)) := by
  have h1 : int_and (v : Int) SPEED_ACTIVE = ((v &&& 0x80 : Nat) : Int) :=
    int_and_natCast v 0x80 (by omega) (by decide)
  have h2 : int_and (v : Int) SPEED_MASK = ((v &&& 0x1F : Nat) : Int) :=
    int_and_natCast v 0x1F (by omega) (by decide)
  have e : convert_speed (v : Int)
      = (if v &&& 0x80 ≠ 0 then -1 else ((v &&& 0x1F : Nat) : ℚ)) := by
    unfold convert_speed
    rw [h1, h2]
    by_cases h : v &&& 0x80 = 0
    · simp [h]
    · have h3 : ((v &&& 0x80 : Nat) : Int) ≠ 0 := by exact_mod_cast h
      rw [if_pos h3, if_pos h]
  refine ⟨e, ?_⟩
  rw [e]
  by_cases h : v &&& 0x80 = 0
  · right
    exact ⟨v &&& 0x1F, Nat.and_le_right, by simp [h]⟩
  · left
    simp [h]

/-- Witness for C14 at the speed bytes `0x9F` (inactive) and `0x7F` (value 31). -/
theorem convert_speed_decode_witness :
    ((0x9F : Nat) < 256 ∧ convert_speed ((0x9F : Nat) : Int) = -1)
    ∧ ((0x7F : Nat) < 256 ∧ convert_speed ((0x7F : Nat) : Int) = 31) := by
  have a := (convert_speed_decode 0x9F (by decide)).1
  have b := (convert_speed_decode 0x7F (by decide)).1
  have ha : (0x9F &&& 0x80 : Nat) = 0x80 := by decide
  have hb : (0x7F &&& 0x80 : Nat) = 0 := by decide
  have hc : (0x7F &&& 0x1F : Nat) = 31 := by decide
  rw [ha] at a
  rw [hb, hc] at b
  exact ⟨⟨by decide, by simpa using a⟩, ⟨by decide, by simpa using b⟩⟩

/-! ## Helper lemmas for single-byte corruption -/

theorem checksum_eq_true_iff (data : List Byte) (h : 2 ≤ data.length) :
    checksum data = true ↔
      (data.getD (data.length - 1) 0).val
        = ((data.take (data.length - 1)).map Fin.val).sum % 256 := by
  have hne : data.length ≠ 1 := by omega
  have hl := checksum_loop_mod data (data.length - 1) 0 0 (by omega)
  simp only [List.drop_zero, Nat.zero_add] at hl
  unfold checksum
  simp only [hne, if_false, decide_eq_true_eq, hl]
  constructor <;> intro h2 <;> exact h2.symm

theorem sum_map_val_set (l : List Byte) :
    ∀ (i : Nat) (b : Byte), i < l.length →
      ((l.set i b).map Fin.val).sum + (l.getD i 0).val = (l.map Fin.val).sum + b.val := by
  induction l with
  | nil => intro i b h; simp at h
  | cons x xs ih =>
    intro i b h
    cases i with
    | zero => simp; omega
    | succ j =>
      have hj : j < xs.length := by simpa using h
      have := ih j b hj
      simp only [List.set_cons_succ, List.map_cons, List.sum_cons, List.getD_cons_succ]
      omega

/-! ## C15: single-byte corruption is detected -/

/-- Claim C15: for every buffer of length at least 2 on which `checksum`
returns true, replacing exactly one byte, at any index including the trailing
checksum byte, by a different byte value yields a buffer on which `checksum`
returns false. -/
theorem checksum_detects_single_byte (data : List Byte) (i : Nat) (b : Byte)
    (hlen : 2 ≤ data.length) (hvalid : checksum data = true) (hi : i < data.length)
    (hb : b ≠ data.getD i 0) :
    checksum (data.set i b) = false := by
  have hv := (checksum_eq_true_iff data hlen).1 hvalid
  have hlen2 : 2 ≤ (data.set i b).length := by simpa using hlen
  have hbv : b.val ≠ (data.getD i 0).val := fun e => hb (Fin.ext e)
  have hb1 := b.isLt
  have hb2 := (data.getD i 0).isLt
  rw [← Bool.not_eq_true]
  intro hc
  have hc2 := (checksum_eq_true_iff (data.set i b) hlen2).1 hc
  rw [List.length_set, List.set_take] at hc2
  have htl : (data.take (data.length - 1)).length = data.length - 1 := by
    rw [List.length_take]; omega
  by_cases hin : i = data.length - 1
  · subst hin
    have e1 : (data.take (data.length - 1)).set (data.length - 1) b
        = data.take (data.length - 1) := List.set_eq_of_length_le (by omega)
    have e2 : (data.set (data.length - 1) b).getD (data.length - 1) 0 = b := by
      simp [List.getD, List.getElem?_set_eq_of_lt b hi]
    rw [e1, e2] at hc2
    omega
  · have hlt : i < data.length - 1 := by omega
    have e2 : (data.set i b).getD (data.length - 1) 0 = data.getD (data.length - 1) 0 := by
      simp [List.getD, List.getElem?_set_ne hin]
    have e3 : (data.take (data.length - 1)).getD i 0 = data.getD i 0 := by
      simp [List.getD, List.getElem?_take, hlt, List.getElem?_eq_getElem hi]
    have hs := sum_map_val_set (data.take (data.length - 1)) i b (by omega)
    rw [e3] at hs
    rw [e2] at hc2
    omega

/-- Witness for C15: in the valid buffer `C8 64 2C` the first byte is replaced
by `C9`. -/
theorem checksum_detects_single_byte_witness :
    (2 ≤ ([200, 100, 44] : List Byte).length ∧ checksum [200, 100, 44] = true
      ∧ 0 < ([200, 100, 44] : List Byte).length
      ∧ (201 : Byte) ≠ ([200, 100, 44] : List Byte).getD 0 0)
    ∧ checksum (([200, 100, 44] : List Byte).set 0 201) = false :=
  ⟨⟨by decide, by decide, by decide, by decide⟩,
    checksum_detects_single_byte [200, 100, 44] 0 201 (by decide) (by decide) (by decide)
      (by decide)⟩

/-! ## Helper lemmas for the range of the decoded integer -/

theorem spec_sign_magnitude_eq (v k : Nat) :
    spec_sign_magnitude v (2 ^ k - 1)
      = if v &&& 0x8000 = 0 then ((v &&& (2 ^ k - 1) : Nat) : Int)
        else ((v &&& (2 ^ k - 1) : Nat) : Int) - 2 ^ k := by
  have hP : 0 < 2 ^ k := Nat.pow_pos (by decide)
  have hlt : v &&& (2 ^ k - 1) < 2 ^ k := by
    have : v &&& (2 ^ k - 1) ≤ 2 ^ k - 1 := Nat.and_le_right
    omega
  unfold spec_sign_magnitude
  by_cases hs : v &&& 0x8000 = 0
  · rw [if_pos hs, if_pos hs]
  · rw [if_neg hs, if_neg hs, xor_two_pow_sub_one k _ hlt]
    have hc : ((2 ^ k : Nat) : Int) = (2 : Int) ^ k := by push_cast; rfl
    omega

theorem and_of_and_eq (v w c d : Nat) (h : w &&& c = v &&& c) (hd : c &&& d = d) :
    w &&& d = v &&& d := by
  rw [← hd, ← Nat.and_assoc, ← Nat.and_assoc, h]

theorem spec_analog_mask_lt (tag : Nat) : spec_analog_mask tag < 65536 := by
  unfold spec_analog_mask
  split <;> decide

theorem convert_analog_eq_result (v : Nat) (hv : v < 65536) (htag : v &&& 0x7000 ≠ 0x1000) :
    convert_analog (to_short v)
      = (calculate_result (to_short v) ((spec_analog_mask (v &&& 0x7000) : Nat) : Int)
          SIGN_BIT : ℚ) * spec_analog_scale (v &&& 0x7000) := by
  rw [calculate_result_to_short v _ hv (spec_analog_mask_lt _), convert_analog_cases v hv]
  unfold spec_analog_mask spec_analog_scale
  by_cases h1 : v &&& 0x7000 = 0x2000
  · simp [h1]
  · by_cases h2 : v &&& 0x7000 = 0x3000
    · simp [h2]
    · by_cases h4 : v &&& 0x7000 = 0x7000
      · simp [h4]
      · simp [h1, h2, h4, htag]

/-! ## C16: sign and range of the decoded integer -/

/-- Claim C16: for every 16-bit field `v` with a non-digital tag, the unscaled
integer `r` that `convert_analog` decodes (`calculate_result` under the tag's
mask, which `convert_analog` multiplies by the tag's scale) is strictly negative
exactly when the sign bit `0x8000` of `v` is set, and then equals
`(v AND mask) - (mask + 1)`; it lies in [-4096, 4095] for the mask `0x0FFF`
(so a temperature lies in [-409.6, 409.5]) and in [-512, 511] for the
wide-range mask `0x01FF`; and for the wide-range tag, bits 9..11 of `v` do not
affect the result. -/
theorem convert_analog_sign_and_range (v : Nat) (hv : v < 65536)
    (htag : v &&& 0x7000 ≠ 0x1000) :
    convert_analog (to_short v)
        = (calculate_result (to_short v) ((spec_analog_mask (v &&& 0x7000) : Nat) : Int)
            SIGN_BIT : ℚ) * spec_analog_scale (v &&& 0x7000)
    ∧ (calculate_result (to_short v) ((spec_analog_mask (v &&& 0x7000) : Nat) : Int) SIGN_BIT < 0
        ↔ v &&& 0x8000 ≠ 0)
    ∧ (v &&& 0x8000 ≠ 0 →
        calculate_result (to_short v) ((spec_analog_mask (v &&& 0x7000) : Nat) : Int) SIGN_BIT
          = ((v &&& spec_analog_mask (v &&& 0x7000) : Nat) : Int)
            - ((spec_analog_mask (v &&& 0x7000) : Nat) + 1))
    ∧ (v &&& 0x7000 ≠ 0x7000 →
        spec_analog_mask (v &&& 0x7000) = 0x0FFF
        ∧ -4096 ≤ calculate_result (to_short v) ((0x0FFF : Nat) : Int) SIGN_BIT
        ∧ calculate_result (to_short v) ((0x0FFF : Nat) : Int) SIGN_BIT ≤ 4095)
    ∧ (v &&& 0x7000 = 0x2000 →
        -(4096 / 10 : ℚ) ≤ convert_analog (to_short v)
        ∧ convert_analog (to_short v) ≤ 4095 / 10)
    ∧ (v &&& 0x7000 = 0x7000 →
        spec_analog_mask (v &&& 0x7000) = 0x01FF
        ∧ -512 ≤ calculate_result (to_short v) ((0x01FF : Nat) : Int) SIGN_BIT
        ∧ calculate_result (to_short v) ((0x01FF : Nat) : Int) SIGN_BIT ≤ 511
        ∧ ∀ w : Nat, w < 65536 → w &&& 0xF1FF = v &&& 0xF1FF →
            calculate_result (to_short w) ((0x01FF : Nat) : Int) SIGN_BIT
              = calculate_result (to_short v) ((0x01FF : Nat) : Int) SIGN_BIT
            ∧ convert_analog (to_short w) = convert_analog (to_short v)) := by
  have r12 : calculate_result (to_short v) ((0x0FFF : Nat) : Int) SIGN_BIT
      = if v &&& 0x8000 = 0 then ((v &&& 0x0FFF : Nat) : Int)
        else ((v &&& 0x0FFF : Nat) : Int) - 4096 := by
    rw [calculate_result_to_short v 0x0FFF hv (by decide)]
    exact spec_sign_magnitude_eq v 12
  have r9 : calculate_result (to_short v) ((0x01FF : Nat) : Int) SIGN_BIT
      = if v &&& 0x8000 = 0 then ((v &&& 0x01FF : Nat) : Int)
        else ((v &&& 0x01FF : Nat) : Int) - 512 := by
    rw [calculate_result_to_short v 0x01FF hv (by decide)]
    exact spec_sign_magnitude_eq v 9
  have b12 : v &&& 0x0FFF ≤ 0x0FFF := Nat.and_le_right
  have b9 : v &&& 0x01FF ≤ 0x01FF := Nat.and_le_right
  have hres := convert_analog_eq_result v hv htag
  have m7 : v &&& 0x7000 = 0x7000 → spec_analog_mask (v &&& 0x7000) = 0x01FF := by
    intro h; simp [spec_analog_mask, h]
  have m12 : v &&& 0x7000 ≠ 0x7000 → spec_analog_mask (v &&& 0x7000) = 0x0FFF := by
    intro h; simp [spec_analog_mask, h]
  refine ⟨hres, ?_, ?_, ?_, ?_, ?_⟩
  · by_cases h7 : v &&& 0x7000 = 0x7000
    · rw [m7 h7, r9]; split <;> omega
    · rw [m12 h7, r12]; split <;> omega
  · intro hs
    by_cases h7 : v &&& 0x7000 = 0x7000
    · rw [m7 h7, r9, if_neg hs]; omega
    · rw [m12 h7, r12, if_neg hs]; omega
  · intro h7
    refine ⟨m12 h7, ?_, ?_⟩ <;> rw [r12] <;> split <;> omega
  · intro h2
    have h7 : v &&& 0x7000 ≠ 0x7000 := by omega
    have hs : spec_analog_scale (v &&& 0x7000) = 1 / 10 := by simp [spec_analog_scale, h2]
    rw [hres, m12 h7, hs]
    have lo : (-4096 : Int) ≤ calculate_result (to_short v) ((0x0FFF : Nat) : Int) SIGN_BIT := by
      rw [r12]; split <;> omega
    have hi : calculate_result (to_short v) ((0x0FFF : Nat) : Int) SIGN_BIT ≤ (4095 : Int) := by
      rw [r12]; split <;> omega
    generalize calculate_result (to_short v) ((0x0FFF : Nat) : Int) SIGN_BIT = r at lo hi ⊢
    have lo2 : (-4096 : ℚ) ≤ (r : ℚ) := by exact_mod_cast lo
    have hi2 : (r : ℚ) ≤ (4095 : ℚ) := by exact_mod_cast hi
    constructor <;> linarith
  · intro h7
    refine ⟨m7 h7, ?_, ?_, ?_⟩
    · rw [r9]; split <;> omega
    · rw [r9]; split <;> omega
    · intro w hw hsame
      have t1 : w &&& 0x7000 = v &&& 0x7000 := and_of_and_eq v w 0xF1FF 0x7000 hsame (by decide)
      have t2 : w &&& 0x8000 = v &&& 0x8000 := and_of_and_eq v w 0xF1FF 0x8000 hsame (by decide)
      have t3 : w &&& 0x01FF = v &&& 0x01FF := and_of_and_eq v w 0xF1FF 0x01FF hsame (by decide)
      have hr : calculate_result (to_short w) ((0x01FF : Nat) : Int) SIGN_BIT
          = calculate_result (to_short v) ((0x01FF : Nat) : Int) SIGN_BIT := by
        rw [calculate_result_to_short w 0x01FF hw (by decide),
          calculate_result_to_short v 0x01FF hv (by decide)]
        unfold spec_sign_magnitude
        rw [t2, t3]
      refine ⟨hr, ?_⟩
      have hres2 := convert_analog_eq_result w hw (by rw [t1]; exact htag)
      rw [hres2, hres, t1, m7 h7, hr]

/-- Witness for C16 at the wide-range field `0xFE05` (sign bit set, bits 9..11
set, low nine bits 5). -/
theorem convert_analog_sign_and_range_witness :
    (0xFE05 < 65536 ∧ 0xFE05 &&& 0x7000 ≠ 0x1000 ∧ 0xFE05 &&& 0x8000 ≠ 0)
    ∧ calculate_result (to_short 0xFE05)
        ((spec_analog_mask (0xFE05 &&& 0x7000) : Nat) : Int) SIGN_BIT
      = ((0xFE05 &&& spec_analog_mask (0xFE05 &&& 0x7000) : Nat) : Int)
          - ((spec_analog_mask (0xFE05 &&& 0x7000) : Nat) + 1) :=
  ⟨⟨by decide, by decide, by decide⟩,
    (convert_analog_sign_and_range 0xFE05 (by decide) (by decide)).2.2.1 (by decide)⟩

/-! ## Helper lemmas for the full 16-bit mask -/

theorem and_sign_eq_zero_iff (x : Nat) (hx : x < 65536) : x &&& 0x8000 = 0 ↔ x < 32768 := by
  constructor
  · intro h
    by_contra hge
    have e : x = 2 ^ 15 + (x - 32768) := by omega
    have h2 := and_sign_of_add (x - 32768) (by omega)
    rw [← e, h] at h2
    exact absurd h2 (by decide)
  · intro h
    exact and_sign_of_lt x (by omega)

theorem calculate_result_full_mask (kwh : Nat) (hk : kwh < 65536) :
    calculate_result (kwh : Int) INT16_POSITIVE_MASK SIGN_BIT = spec_int16 kwh := by
  have e : (INT16_POSITIVE_MASK : Int) = ((0xFFFF : Nat) : Int) := by decide
  rw [e, calculate_result_natCast kwh 0xFFFF hk (by decide)]
  have h := spec_sign_magnitude_eq kwh 16
  have hm : kwh &&& (2 ^ 16 - 1) = kwh := by
    rw [Nat.and_pow_two_sub_one_eq_mod, Nat.mod_eq_of_lt (by omega)]
  rw [hm] at h
  have h2 : spec_sign_magnitude kwh 0xFFFF
      = if kwh &&& 0x8000 = 0 then (kwh : Int) else (kwh : Int) - 2 ^ 16 := h
  rw [h2]
  unfold spec_int16
  by_cases hs : kwh < 32768
  · rw [if_pos ((and_sign_eq_zero_iff kwh hk).2 hs), if_pos hs]
  · rw [if_neg (fun h0 => hs ((and_sign_eq_zero_iff kwh hk).1 h0)), if_neg hs]
    norm_num

/-! ## C17: the full mask is 16-bit two's complement -/

/-- Claim C17 as amended: with the full 16-bit mask the sign-magnitude rule
coincides with 16-bit two's complement. For every `kwh` in 0..65535,
`calculate_value (kwh, 1, 0xFFFF, 0x8000)` equals `kwh` when `kwh < 32768` and
`kwh - 65536` otherwise (`spec_int16`); so for every `mwh` with
`-2147483 ≤ mwh ≤ 2147483`, for which the `int` product `mwh * 1000` is
representable (this includes every 16-bit MWh field),
`convert_energy mwh kwh = mwh * 1000 + int16(kwh) / 10`, and it is less than
`mwh * 1000` whenever the sign bit of `kwh` is set. -/
theorem full_mask_twos_complement (kwh : Nat) (hk : kwh < 65536) :
    calculate_value (kwh : Int) 1 INT16_POSITIVE_MASK SIGN_BIT
        = (if kwh < 32768 then (kwh : ℚ) else (kwh : ℚ) - 65536)
    ∧ calculate_value (kwh : Int) 1 INT16_POSITIVE_MASK SIGN_BIT = (spec_int16 kwh : ℚ)
    ∧ (∀ mwh : Int, -2147483 ≤ mwh → mwh ≤ 2147483 →
        convert_energy mwh kwh = (mwh : ℚ) * 1000 + (spec_int16 kwh : ℚ) / 10
        ∧ (kwh &&& 0x8000 ≠ 0 → convert_energy mwh kwh < (mwh : ℚ) * 1000)) := by
  have hr := calculate_result_full_mask kwh hk
  have hneg : kwh &&& 0x8000 ≠ 0 → (spec_int16 kwh : ℚ) < 0 := by
    intro hs
    have h1 : ¬ kwh < 32768 := fun h => hs ((and_sign_eq_zero_iff kwh hk).2 h)
    have h2 : spec_int16 kwh < 0 := by
      unfold spec_int16
      rw [if_neg h1]; omega
    exact_mod_cast h2
  have hgen : ∀ mwh : Int,
      convert_energy mwh kwh
        = ((wrap_int (mwh * 1000) : Int) : ℚ) + (spec_int16 kwh : ℚ) / 10 := by
    intro mwh
    unfold convert_energy calculate_value
    rw [hr]
    ring
  refine ⟨?_, ?_, ?_⟩
  · unfold calculate_value
    rw [hr]
    unfold spec_int16
    split <;> simp
  · unfold calculate_value
    rw [hr]
    simp
  · intro mwh h1 h2
    have hw : wrap_int (mwh * 1000) = mwh * 1000 := wrap_int_of_range _ (by omega) (by omega)
    have hg := hgen mwh
    rw [hw] at hg
    push_cast at hg
    refine ⟨hg, ?_⟩
    intro hs
    have := hneg hs
    rw [hg]
    linarith

/-- Witness for the amended C17 at the kWh field `0xFFFF`, which reads as -1,
and the MWh field `65535`: the energy is `65535000 - 1/10`, below `65535000`. -/
theorem full_mask_twos_complement_witness :
    ((0xFFFF : Nat) < 65536 ∧ (-2147483 : Int) ≤ 65535 ∧ (65535 : Int) ≤ 2147483
      ∧ (0xFFFF : Nat) &&& 0x8000 ≠ 0)
    ∧ calculate_value ((0xFFFF : Nat) : Int) 1 INT16_POSITIVE_MASK SIGN_BIT
        = (if (0xFFFF : Nat) < 32768 then ((0xFFFF : Nat) : ℚ) else ((0xFFFF : Nat) : ℚ) - 65536)
    ∧ convert_energy 65535 ((0xFFFF : Nat) : Int)
        = ((65535 : Int) : ℚ) * 1000 + (spec_int16 0xFFFF : ℚ) / 10
    ∧ convert_energy 65535 ((0xFFFF : Nat) : Int) < ((65535 : Int) : ℚ) * 1000 :=
  ⟨⟨by decide, by decide, by decide, by decide⟩,
    (full_mask_twos_complement 0xFFFF (by decide)).1,
    ((full_mask_twos_complement 0xFFFF (by decide)).2.2 65535 (by decide) (by decide)).1,
    ((full_mask_twos_complement 0xFFFF (by decide)).2.2 65535 (by decide) (by decide)).2
      (by decide)⟩

/-- Counterexample to C17 as stated, where `mwh` is free: the `int` product
`mwh * 1000` overflows outside `-2147483 ≤ mwh ≤ 2147483`. At `mwh = 2147484`,
`kwh = 0` the code gives `-2147483296`, not `2147484000 + int16(0) / 10`. At
`mwh = -2147484`, `kwh = 0xFFFF` the sign bit of `kwh` is set, yet the code
gives `2147483296 - 1/10`, which is not less than `mwh * 1000 = -2147484000`. -/
theorem full_mask_overflow_counterexample :
    (0 : Nat) < 65536
    ∧ convert_energy 2147484 ((0 : Nat) : Int) = -2147483296
    ∧ convert_energy 2147484 ((0 : Nat) : Int)
        ≠ ((2147484 : Int) : ℚ) * 1000 + (spec_int16 0 : ℚ) / 10
    ∧ (0xFFFF : Nat) < 65536 ∧ (0xFFFF : Nat) &&& 0x8000 ≠ 0
    ∧ convert_energy (-2147484) ((0xFFFF : Nat) : Int) = 2147483296 - 1 / 10
    ∧ ¬ (convert_energy (-2147484) ((0xFFFF : Nat) : Int) < ((-2147484 : Int) : ℚ) * 1000) := by
  have w1 : wrap_int (2147484 * 1000) = -2147483296 := by decide
  have w2 : wrap_int (-2147484 * 1000) = 2147483296 := by decide
  have r1 := calculate_result_full_mask 0 (by decide)
  have r2 := calculate_result_full_mask 0xFFFF (by decide)
  have d1 : spec_int16 0 = 0 := by decide
  have d2 : spec_int16 0xFFFF = -1 := by decide
  rw [d1] at r1
  rw [d2] at r2
  have h1 : convert_energy 2147484 ((0 : Nat) : Int) = -2147483296 := by
    unfold convert_energy calculate_value
    rw [w1, r1]
    norm_num
  have h2 : convert_energy (-2147484) ((0xFFFF : Nat) : Int) = 2147483296 - 1 / 10 := by
    unfold convert_energy calculate_value
    rw [w2, r2]
    norm_num
  refine ⟨by decide, h1, ?_, by decide, by decide, h2, ?_⟩
  · rw [h1, d1]; norm_num
  · rw [h2]; norm_num

/-! ## Helper lemmas for the 32-bit sign-magnitude rule -/

theorem int_bits_lt (a : Int) : int_bits a < 2 ^ 32 := by
  unfold int_bits
  omega

theorem wrap_int_int_bits (a : Int) (h1 : -2 ^ 31 ≤ a) (h2 : a < 2 ^ 31) :
    wrap_int ((int_bits a : Nat) : Int) = a := by
  unfold wrap_int int_bits
  omega

theorem int_and_all_ones (a : Int) (h1 : -2 ^ 31 ≤ a) (h2 : a < 2 ^ 31) :
    int_and a (-1) = a := by
  have e : int_bits (-1) = 2 ^ 32 - 1 := by decide
  unfold int_and
  rw [e, Nat.and_pow_two_sub_one_eq_mod, Nat.mod_eq_of_lt (int_bits_lt a)]
  exact wrap_int_int_bits a h1 h2

theorem int_xor_all_ones (a : Int) (h1 : -2 ^ 31 ≤ a) (h2 : a < 2 ^ 31) :
    int_xor a (-1) = -a - 1 := by
  have e : int_bits (-1) = 2 ^ 32 - 1 := by decide
  have hb := int_bits_lt a
  have hw := wrap_int_int_bits a h1 h2
  unfold int_xor
  rw [e, xor_two_pow_sub_one 32 _ hb]
  unfold wrap_int at hw ⊢
  omega

theorem int_and_sign_32 (a : Int) (h1 : -2 ^ 31 ≤ a) (h2 : a < 2 ^ 31) :
    int_and a (-2 ^ 31) ≠ 0 ↔ a < 0 := by
  have e : int_bits (-2 ^ 31) = 2 ^ 31 := by decide
  unfold int_and
  rw [e, Nat.and_two_pow]
  by_cases hneg : a < 0
  · have hx : int_bits a = 2 ^ 31 + (a + 2 ^ 31).toNat := by
      unfold int_bits; omega
    have hy : (a + 2 ^ 31).toNat < 2 ^ 31 := by omega
    rw [hx, Nat.testBit_two_pow_add_eq, Nat.testBit_lt_two_pow hy]
    simp only [Bool.not_false, Bool.toNat_true, Nat.one_mul]
    constructor
    · intro _; exact hneg
    · intro _; decide
  · have hx : int_bits a < 2 ^ 31 := by
      unfold int_bits; omega
    rw [Nat.testBit_lt_two_pow hx]
    simp only [Bool.toNat_false, Nat.zero_mul]
    constructor
    · intro h; exact absurd (by decide) h
    · intro h; exact absurd h hneg

theorem calculate_result_32 (value : Int) (h1 : -2 ^ 31 < value) (h2 : value < 2 ^ 31) :
    calculate_result value (wrap_int INT32_MASK) (wrap_int INT32_SIGN) = value := by
  have e1 : wrap_int INT32_MASK = -1 := by decide
  have e2 : wrap_int INT32_SIGN = -2 ^ 31 := by decide
  unfold calculate_result
  rw [e1, e2, int_and_all_ones value (by omega) h2]
  by_cases hneg : value < 0
  · rw [if_pos ((int_and_sign_32 value (by omega) h2).2 hneg),
      int_xor_all_ones value (by omega) h2]
    unfold wrap_int
    omega
  · rw [if_neg (fun h => hneg ((int_and_sign_32 value (by omega) h2).1 h))]

theorem int_and_zero (a : Int) : int_and a 0 = 0 := by
  have e : int_bits 0 = 0 := by decide
  unfold int_and
  rw [e, Nat.and_zero]
  decide

/-! ## C18: the 32-bit rule is the identity -/

/-- Claim C18: in `convert_power` the sign-magnitude rule with mask
`0xFFFFFFFF` and sign bit `0x80000000`, taken in 32-bit `int` arithmetic, is
the identity on the signed value: for every `int` value greater than `INT_MIN`
the decoded integer is the value itself, and for every `active`, `position` with
`active AND position` non-zero `convert_power` returns `value / 2560`; for
`position = 0` it returns -1 for every `active` word. -/
theorem convert_power_identity :
    (∀ value : Int, -2 ^ 31 < value → value < 2 ^ 31 →
      calculate_result value (wrap_int INT32_MASK) (wrap_int INT32_SIGN) = value
      ∧ ∀ active position : Int, int_and active position ≠ 0 →
          convert_power value active position = (value : ℚ) / 2560)
    ∧ (∀ value active : Int, convert_power value active 0 = -1) := by
  constructor
  · intro value h1 h2
    have hr := calculate_result_32 value h1 h2
    refine ⟨hr, ?_⟩
    intro active position hap
    unfold convert_power calculate_value
    rw [if_pos hap, hr]
    ring
  · intro value active
    unfold convert_power
    rw [int_and_zero]
    simp

/-- Witness for C18 at `value = -2560`, `active = 3`, `position = 2`. -/
theorem convert_power_identity_witness :
    ((-2 ^ 31 : Int) < -2560 ∧ (-2560 : Int) < 2 ^ 31 ∧ int_and 3 2 ≠ 0)
    ∧ convert_power (-2560) 3 2 = ((-2560 : Int) : ℚ) / 2560 :=
  ⟨⟨by decide, by decide, by decide⟩,
    (convert_power_identity.1 (-2560) (by decide) (by decide)).2 3 2 (by decide)⟩

/-! ## Helper lemmas for the read bounds -/

theorem read_u16_take (data : List Byte) (off : Nat) (h : off + 1 < 42) :
    read_u16 (data.take 42) off = read_u16 data off := by
  have h0 : off < 42 := by omega
  unfold read_u16
  rw [List.getElem?_take, List.getElem?_take, if_pos h0, if_pos h]

theorem parse_blnet_data_take (p : BLNETData) (data : List Byte) (data_len : Nat) :
    parse_blnet_data p (data.take 42) data_len = parse_blnet_data p data data_len := by
  unfold parse_blnet_data read_analog read_u64
  rw [read_u16_take data 1 (by decide), read_u16_take data 3 (by decide),
    read_u16_take data 5 (by decide), read_u16_take data 7 (by decide),
    read_u16_take data 9 (by decide), read_u16_take data 11 (by decide),
    read_u16_take data 34 (by decide), read_u16_take data (34 + 2) (by decide),
    read_u16_take data 38 (by decide), read_u16_take data 40 (by decide)]

theorem query_ok_length (ex : Exchange) (response buf : List Byte) (resp_len : Nat)
    (hlen : response.length = resp_len)
    (h : query ex response resp_len = Except.ok buf) : buf.length = resp_len := by
  unfold query send_command receive_response at h
  cases hs : ex.send_ok with
  | false => rw [hs] at h; simp at h
  | true =>
    rw [hs] at h
    cases hr : ex.recv with
    | none => rw [hr] at h; simp at h
    | some bytes =>
      rw [hr] at h
      simp only [if_true] at h
      by_cases hc : checksum (List.take resp_len bytes
          ++ List.drop (List.take resp_len bytes).length response) = true
      · rw [if_pos hc] at h
        simp only [Except.ok.injEq] at h
        rw [← h, List.length_append, List.length_drop, List.length_take]
        omega
      · rw [if_neg hc] at h
        simp at h

theorem query_ne_out_of_bounds (ex : Exchange) (response : List Byte) (resp_len : Nat) :
    query ex response resp_len ≠ Except.error Error.out_of_bounds := by
  unfold query send_command receive_response
  cases ex.send_ok with
  | false => simp
  | true =>
    cases ex.recv with
    | none => simp
    | some bytes =>
      simp only [if_true]
      split <;> simp

theorem get_latest_loop_in_bounds (conn : BLNETConn) (data : BLNETData)
    (net : Nat → Exchange) (h42 : 42 ≤ conn.actualSize) :
    ∀ n i : Nat, ∀ response : List Byte, response.length = conn.actualSize →
      (get_latest_loop conn data net n i response).1 ≠ Except.error Error.out_of_bounds := by
  intro n
  induction n with
  | zero => intro i response _; simp [get_latest_loop]
  | succ n ih =>
    intro i response hlen
    rw [get_latest_loop]
    cases hq : query (net i) response conn.actualSize with
    | error e =>
      simp only
      intro h
      have : e = Error.out_of_bounds := by simpa using h
      rw [this] at hq
      exact query_ne_out_of_bounds _ _ _ hq
    | ok buf =>
      have hb := query_ok_length _ _ _ _ hlen hq
      simp only
      have h0 : 0 < buf.length := by omega
      rw [List.getElem?_eq_getElem h0]
      simp only
      split
      · rw [parse_blnet_data_eq data buf conn.actualSize (by omega)]
        simp [decode_result]
      · exact ih (i + 1) buf hb

/-! ## C19: every read is in range -/

/-- Claim C19: every byte index that `parse_blnet_data` reads from the snapshot
buffer is below 42: the result on a buffer is the result on its first 42
bytes. So for every buffer of length at least 42 no read is out of range and
`parse_blnet_data` returns a reading; in particular `get_latest` on a
connection with `actualSize` at least 42 (55 in production) never ends with an
out-of-range access, whatever the transport does. -/
theorem parse_blnet_data_reads_in_range (p : BLNETData) (data : List Byte) (data_len : Nat) :
    parse_blnet_data p (data.take 42) data_len = parse_blnet_data p data data_len
    ∧ (42 ≤ data.length → ∃ r, parse_blnet_data p data data_len = some r)
    ∧ (∀ (conn : BLNETConn) (garbage : Nat → Byte) (net : Nat → Exchange),
        42 ≤ conn.actualSize →
        (get_latest conn p garbage net).1 ≠ Except.error Error.out_of_bounds) := by
  refine ⟨parse_blnet_data_take p data data_len, ?_, ?_⟩
  · intro h
    exact ⟨_, parse_blnet_data_eq p data data_len h⟩
  · intro conn garbage net h42
    exact get_latest_loop_in_bounds conn p net h42 MAX_RETRIES 0 _ (by simp)

/-- Witness for C19 at the 55-byte snapshot and the production size 55. -/
theorem parse_blnet_data_reads_in_range_witness :
    (42 ≤ sample_snapshot.length
      ∧ ∃ r, parse_blnet_data sample_reading sample_snapshot 55 = some r)
    ∧ ((42 : Nat) ≤ 55
      ∧ (get_latest { actualSize := 55 } sample_reading (fun _ => 0) (device sample_responses)).1
          ≠ Except.error Error.out_of_bounds) :=
  ⟨⟨by decide,
      (parse_blnet_data_reads_in_range sample_reading sample_snapshot 55).2.1 (by decide)⟩,
    ⟨by decide,
      (parse_blnet_data_reads_in_range sample_reading sample_snapshot 55).2.2
        { actualSize := 55 } (fun _ => 0) (device sample_responses) (by decide)⟩⟩

end Blnet
